import Mathlib

/-!
Verification of the NYC-taxi ETL pipeline (`src/etl/etl.py`) against its
natural-language specification.  The pipeline is shallowly embedded:

* Numeric cells of a pandas DataFrame are modelled by `PyNum`, which keeps
  Python-float non-finiteness (`nan`, `inf`, `-inf`) explicit and represents
  finite values exactly as rationals (the claims under study never depend on
  rounding, only on null/sign/threshold behaviour).
* Timestamp cells are epoch seconds (`Option Int`, `none` = `NaT`).
* A DataFrame is a list of column names plus row-major cells (`Frame`).
* Fallible Python operations (`KeyError`, `TypeError`, `astype` overflow)
  are modelled with `Except String`.
-/

set_option autoImplicit false

/-- A Python/numpy float value: `nan` (which also stands for a scalar
`None`/missing value, since `pd.isna` treats both alike), positive and
negative infinity, and finite values represented exactly. -/
inductive PyNum where
  | nan
  | inf
  | ninf
  | fin (q : ℚ)
deriving DecidableEq, Repr

/-- Model of `pd.isna` on a scalar float: true exactly on `nan`. -/
def PyNum.isna : PyNum → Bool
  | .nan => true
  | _ => false

/-- Python `<` on floats: any comparison involving `nan` is false. -/
def PyNum.lt : PyNum → PyNum → Bool
  | .fin a, .fin b => decide (a < b)
  | .fin _, .inf => true
  | .ninf, .fin _ => true
  | .ninf, .inf => true
  | _, _ => false

/-- Python `<=` on floats: any comparison involving `nan` is false. -/
def PyNum.le : PyNum → PyNum → Bool
  | .fin a, .fin b => decide (a ≤ b)
  | .fin _, .inf => true
  | .ninf, .fin _ => true
  | .ninf, .inf => true
  | .inf, .inf => true
  | .ninf, .ninf => true
  | _, _ => false

/-- Python float addition (used for pandas mean/median): `nan` absorbs,
`inf + (-inf)` is `nan`. -/
def PyNum.add : PyNum → PyNum → PyNum
  | .fin a, .fin b => .fin (a + b)
  | .nan, _ => .nan
  | _, .nan => .nan
  | .inf, .ninf => .nan
  | .ninf, .inf => .nan
  | .inf, _ => .inf
  | _, .inf => .inf
  | .ninf, _ => .ninf
  | _, .ninf => .ninf

/-- Python float multiplication: `nan` absorbs, `inf * 0` is `nan`. -/
def PyNum.mul : PyNum → PyNum → PyNum
  | .fin a, .fin b => .fin (a * b)
  | .nan, _ => .nan
  | _, .nan => .nan
  | .inf, .inf => .inf
  | .inf, .ninf => .ninf
  | .ninf, .inf => .ninf
  | .ninf, .ninf => .inf
  | .inf, .fin b => if 0 < b then .inf else if b < 0 then .ninf else .nan
  | .fin a, .inf => if 0 < a then .inf else if a < 0 then .ninf else .nan
  | .ninf, .fin b => if 0 < b then .ninf else if b < 0 then .inf else .nan
  | .fin a, .ninf => if 0 < a then .ninf else if a < 0 then .inf else .nan

/-- Python float division.  Division by (finite) zero raises
`ZeroDivisionError` in Python; every call site in the source either guards
against a zero divisor (`safe_div`) or wraps the division in
`try/except` returning `nan` (`compute_speed`), so the zero-divisor case is
mapped to `nan`, the value those excepting paths produce. -/
def PyNum.div : PyNum → PyNum → PyNum
  | .nan, _ => .nan
  | _, .nan => .nan
  | .fin a, .fin b => if b = 0 then .nan else .fin (a / b)
  | .fin _, .inf => .fin 0
  | .fin _, .ninf => .fin 0
  | .inf, .fin b => if b = 0 then .nan else if 0 < b then .inf else .ninf
  | .ninf, .fin b => if b = 0 then .nan else if 0 < b then .ninf else .inf
  | .inf, _ => .nan
  | .ninf, _ => .nan

/-- Python `math.isfinite`. -/
def PyNum.isfinite : PyNum → Bool
  | .fin _ => true
  | _ => false

/-- Rendering of a float by Python `str` (only the shape matters to the
pipeline: vendor codes are opaque strings). -/
def PyNum.render : PyNum → String
  | .nan => "nan"
  | .inf => "inf"
  | .ninf => "-inf"
  | .fin q => toString q

/-- Truncation toward zero, the semantics of numpy `astype(int)` on a
finite float. -/
def ratTrunc (q : ℚ) : Int :=
  if 0 ≤ q then ⌊q⌋ else ⌈q⌉

/-- One cell of a DataFrame.  `num` is a float cell (missing numeric values
are `num nan`, as in pandas), `time` is a datetime cell (`none` = `NaT`),
`str` is text (modelling non-numeric text: raw cells that `pd.read_csv`
would have parsed as numbers are represented as `num` directly), and
`null` is a Python `None` held in an object column. -/
inductive Cell where
  | num (x : PyNum)
  | time (t : Option Int)
  | str (s : String)
  | null
deriving DecidableEq, Repr

/-- Model of `pd.isna` on one cell. -/
def Cell.isna : Cell → Bool
  | .num x => x.isna
  | .time none => true
  | .time (some _) => false
  | .str _ => false
  | .null => true

/-- Whether a cell is a float cell. -/
def Cell.isNum : Cell → Bool
  | .num _ => true
  | _ => false

/-- Numeric reading of a cell where Python would call float-valued
operations on it; non-numeric cells map to `nan`, matching the
`except`-to-`nan`/`None` fallbacks at every call site that can receive
them. -/
def cellNum : Cell → PyNum
  | .num x => x
  | _ => .nan

/-- Model of `pd.to_numeric(column, errors="coerce")` on one cell: numbers
pass through, everything unparseable becomes `nan`. -/
def Cell.toNumeric : Cell → Cell
  | .num x => .num x
  | _ => .num .nan

/-- Model of `pd.to_datetime(column, errors="coerce")` on one cell.
Datetimes pass through; a finite number is read as an epoch offset
(granularity abstracted to seconds); text cells — which in this model stand
for non-datetime text — and non-finite numbers coerce to `NaT`. -/
def Cell.toDatetime : Cell → Cell
  | .time t => .time t
  | .num (.fin q) => .time (some ⌊q⌋)
  | _ => .time none

/-- Model of `.astype(str)` on one cell (used for `vendor_code`). -/
def Cell.astypeStr : Cell → Cell
  | .str s => .str s
  | .num x => .str x.render
  | .time (some t) => .str (toString t)
  | .time none => .str "NaT"
  | .null => .str "None"

/-- Insertion of one value into a sorted list, with the total order numpy
uses when sorting floats: `-inf < finite < inf` (`nan`s sort last; the
pipeline only sorts columns from which `dropna` already removed them). -/
def PyNum.sortLe : PyNum → PyNum → Bool
  | .ninf, _ => true
  | .fin a, .fin b => decide (a ≤ b)
  | .fin _, .ninf => false
  | .fin _, _ => true
  | .inf, .fin _ => false
  | .inf, .ninf => false
  | .inf, _ => true
  | .nan, .nan => true
  | .nan, _ => false

def insertPy (x : PyNum) : List PyNum → List PyNum
  | [] => [x]
  | y :: ys => if x.sortLe y then x :: y :: ys else y :: insertPy x ys

def sortPy : List PyNum → List PyNum
  | [] => []
  | x :: xs => insertPy x (sortPy xs)

/-- Pandas `Series.sum` (float). -/
def pySum (l : List PyNum) : PyNum :=
  l.foldl PyNum.add (.fin 0)

/-- Pandas `Series.mean`: sum divided by count (`nan` on an empty series,
since the model's division by a zero count yields `nan`). -/
def pyMean (l : List PyNum) : PyNum :=
  (pySum l).div (.fin l.length)

/-- Pandas `Series.median`: middle element of the sorted values, or the
average of the two middle elements for an even count. -/
def pyMedian (l : List PyNum) : PyNum :=
  let s := sortPy l
  let n := s.length
  if n % 2 = 1 then s.getD (n / 2) .nan
  else ((s.getD (n / 2 - 1) .nan).add (s.getD (n / 2) .nan)).div (.fin 2)

/-- A pandas DataFrame, row-major: the column names in order, and the rows
(each a list of cells positionally matching `cols`). -/
structure Frame where
  cols : List String
  rows : List (List Cell)
deriving Repr, DecidableEq

/-- Index of a column name (first occurrence). -/
def colIdx (cols : List String) (c : String) : Option Nat :=
  cols.indexOf? c

/-- Model of `row.get(c)` / `row[c]` on one row: `none` when the column is
absent (where `row[c]` would raise `KeyError` and `row.get(c)` returns
`None`). -/
def rowGet (cols : List String) (row : List Cell) (c : String) : Option Cell :=
  (colIdx cols c).bind row.get?

/-- Column names after `df[dst] = ...`: unchanged if `dst` exists,
appended otherwise. -/
def assignCols (cols : List String) (dst : String) : List String :=
  if cols.contains dst then cols else cols ++ [dst]

/-- One row after `df[dst] = ...` assigned the value `v` for that row. -/
def assignRow (cols : List String) (dst : String) (v : Cell) (row : List Cell) : List Cell :=
  match colIdx cols dst with
  | some i => row.set i v
  | none => row ++ [v]

/-- Model of a column assignment `df[dst] = <per-row expression>`: `g`
computes the row's new cell from the column names and the row. -/
def Frame.assign (f : Frame) (dst : String) (g : List String → List Cell → Cell) : Frame :=
  ⟨assignCols f.cols dst, f.rows.map (fun r => assignRow f.cols dst (g f.cols r) r)⟩

/-- The values of a named column, or `none` when absent. -/
def Frame.getColVals (f : Frame) (c : String) : Option (List Cell) :=
  (colIdx f.cols c).map (fun i => f.rows.map (fun r => r.getD i Cell.null))

/-- Geographic bounds from the source (NYC approx). -/
def MIN_LAT : ℚ := 40.4
def MAX_LAT : ℚ := 40.95
def MIN_LON : ℚ := -74.35
def MAX_LON : ℚ := -73.7

/-- The 17 canonical columns inserted into the `trips` table, in order
(`CANONICAL_COLS` in the source). -/
def CANONICAL_COLS : List String :=
  ["pickup_datetime", "dropoff_datetime",
   "pickup_lat", "pickup_lon", "dropoff_lat", "dropoff_lon",
   "passenger_count", "trip_distance_km", "trip_duration_seconds",
   "fare_amount", "tip_amount", "trip_speed_kmh", "fare_per_km",
   "tip_pct", "hour_of_day", "day_of_week", "vendor_code"]

/-- `is_valid_coordinate(lat, lon)` from the source: false when either
value is missing, inside the bounding box otherwise.  The `float()` calls
of the source can only raise for non-numeric cells, which the enclosing
`try/except` turns into `False`; `cellNum` maps those cells to `nan`,
whose bound comparisons are false. -/
def is_valid_coordinate (lat lon : Option Cell) : Bool :=
  match lat, lon with
  | some la, some lo =>
    if la.isna || lo.isna then false
    else
      let lav := cellNum la
      let lov := cellNum lo
      (PyNum.fin MIN_LAT).le lav && lav.le (.fin MAX_LAT) &&
        (PyNum.fin MIN_LON).le lov && lov.le (.fin MAX_LON)
  | _, _ => false

/-- `safe_div(a, b)` from the source.  `none` models Python `None`, both as
argument (`b is None`, and `pd.isna(None)` for `a`) and as result. -/
def safe_div (a b : Option PyNum) : Option PyNum :=
  match b with
  | none => none
  | some bv =>
    match a with
    | none => none
    | some av =>
      if av.isna || bv.isna then none
      else if bv = .fin 0 then none
      else some (av.div bv)

/-- Alias lists from `detect_and_assign_columns`, in source order
(first alias present in the input wins). -/
def pickupAliases : List String :=
  ["tpep_pickup_datetime", "pickup_datetime", "pickup_time", "pickup_ts"]
def dropoffAliases : List String :=
  ["tpep_dropoff_datetime", "dropoff_datetime", "dropoff_time", "dropoff_ts"]
def pickupLonAliases : List String :=
  ["pickup_longitude", "pickup_lon", "pickup_long"]
def pickupLatAliases : List String :=
  ["pickup_latitude", "pickup_lat", "pickup_latitude_decimal"]
def dropoffLonAliases : List String :=
  ["dropoff_longitude", "dropoff_lon", "dropoff_long"]
def dropoffLatAliases : List String :=
  ["dropoff_latitude", "dropoff_lat", "dropoff_latitude_decimal"]
def distanceAliases : List String :=
  ["trip_distance", "distance", "tripdistance"]
def fareAliases : List String :=
  ["fare_amount", "fare", "fareamount"]
def tipAliases : List String :=
  ["tip_amount", "tip", "tipamount"]

/-- First alias present among the frame's columns. -/
def findAlias (cols : List String) (aliases : List String) : Option String :=
  aliases.find? (fun a => cols.contains a)

/-- `normalize_columns`: strip and lowercase the column names. -/
def normalize_columns (f : Frame) : Frame :=
  ⟨f.cols.map (fun c => c.trim.toLower), f.rows⟩

/-- One `for c in aliases: if c in df.columns: df[dst] = conv(df[c]); break`
loop from `detect_and_assign_columns`, with `conv` the per-cell coercion. -/
def mapField (f : Frame) (aliases : List String) (dst : String) (conv : Cell → Cell) : Frame :=
  match findAlias f.cols aliases with
  | none => f
  | some src => f.assign dst (fun cols row => conv ((rowGet cols row src).getD Cell.null))

/-- The `passenger_count` cell transform: `pd.to_numeric(..., errors="coerce")
.fillna(1).astype(int)`.  `astype(int)` on an infinite float raises, which
aborts `clean_chunk`. -/
def passengerCell (c : Cell) : Except String Cell :=
  match c.toNumeric with
  | .num .nan => .ok (.num (.fin 1))
  | .num (.fin q) => .ok (.num (.fin (ratTrunc q)))
  | .num .inf => .error "IntCastingNaNError: cannot convert non-finite values to integer"
  | .num .ninf => .error "IntCastingNaNError: cannot convert non-finite values to integer"
  | c' => .ok c'

/-- Sequential `mapM` over `Except`, stopping at the first error (the
order in which a column-wide pandas operation surfaces a bad cell). -/
def exMapM {a b : Type} (f : a → Except String b) : List a → Except String (List b)
  | [] => .ok []
  | x :: xs => do
    let y ← f x
    let ys ← exMapM f xs
    .ok (y :: ys)

/-- The `passenger_count` step: coerce/default an existing column, or
create a constant column of 1. -/
def passengerStep (f : Frame) : Except String Frame :=
  if f.cols.contains "passenger_count" then do
    let rows ← exMapM (fun r => do
      let c ← passengerCell ((rowGet f.cols r "passenger_count").getD Cell.null)
      pure (assignRow f.cols "passenger_count" c r)) f.rows
    pure ⟨assignCols f.cols "passenger_count", rows⟩
  else
    pure (f.assign "passenger_count" (fun _ _ => .num (.fin 1)))

/-- The `vendor_code` step: `vendor_id` as string, else `vendor` as string,
else `None`. -/
def vendorStep (f : Frame) : Frame :=
  if f.cols.contains "vendor_id" then
    f.assign "vendor_code" (fun cols row => ((rowGet cols row "vendor_id").getD Cell.null).astypeStr)
  else if f.cols.contains "vendor" then
    f.assign "vendor_code" (fun cols row => ((rowGet cols row "vendor").getD Cell.null).astypeStr)
  else
    f.assign "vendor_code" (fun _ _ => Cell.null)

/-- Miles-to-kilometers factor from the source. -/
def milesToKm : ℚ := 1.60934

/-- Pandas `Series.dropna` on a column. -/
def dropnaCells (l : List Cell) : List Cell :=
  l.filter (fun c => !c.isna)

/-- The unit-heuristic condition of `detect_and_assign_columns` (line
137): the non-null distance values are nonempty with mean under 200 and
median under 30.  Only meaningful when those values are numeric; the
non-numeric case makes `heuristicStep` fail instead. -/
def distCondition (col : List Cell) : Bool :=
  let s := dropnaCells col
  let vals := s.map cellNum
  !s.isEmpty && (pyMean vals).lt (.fin 200) && (pyMedian vals).lt (.fin 30)

/-- The unit-conversion branch body `df["trip_distance_km"] * 1.60934`,
exposed with the decision as a parameter (`heuristicStep` instantiates it
with the frame's own `distCondition`; chunk-splitting arguments instantiate
it with a fixed decision).  Errors model the pandas `TypeError`s raised by
`mean()` on non-numeric values and by multiplying an object column. -/
def heuristicStepD (decision : Bool) (f : Frame) : Except String Frame :=
  match f.getColVals "trip_distance_km" with
  | none => .ok f
  | some col =>
    let s := dropnaCells col
    if s.isEmpty then .ok f
    else if s.any (fun c => !c.isNum) then
      .error "TypeError: could not compute mean of non-numeric distance values"
    else if decision then
      if col.any (fun c => !c.isNum) then
        .error "TypeError: cannot multiply non-numeric distance values"
      else
        .ok (f.assign "trip_distance_km"
          (fun cols row => .num ((cellNum ((rowGet cols row "trip_distance_km").getD Cell.null)).mul (.fin milesToKm))))
    else .ok f

/-- Lines 134-138 of the source: per-chunk unit heuristic on the distance
column. -/
def heuristicStep (f : Frame) : Except String Frame :=
  heuristicStepD (distCondition ((f.getColVals "trip_distance_km").getD [])) f

/-- The alias-mapping loops of `detect_and_assign_columns`, in source
order. -/
def mapAllFields (f : Frame) : Frame :=
  let f := mapField f pickupAliases "pickup_datetime" Cell.toDatetime
  let f := mapField f dropoffAliases "dropoff_datetime" Cell.toDatetime
  let f := mapField f pickupLonAliases "pickup_lon" Cell.toNumeric
  let f := mapField f pickupLatAliases "pickup_lat" Cell.toNumeric
  let f := mapField f dropoffLonAliases "dropoff_lon" Cell.toNumeric
  let f := mapField f dropoffLatAliases "dropoff_lat" Cell.toNumeric
  let f := mapField f distanceAliases "trip_distance_km" Cell.toNumeric
  let f := mapField f fareAliases "fare_amount" Cell.toNumeric
  mapField f tipAliases "tip_amount" Cell.toNumeric

/-- Lines 117-118: default the `tip_amount` column to 0.0 when absent. -/
def tipDefaultStep (f : Frame) : Frame :=
  if f.cols.contains "tip_amount" then f
  else f.assign "tip_amount" (fun _ _ => .num (.fin 0))

/-- `detect_and_assign_columns` up to (excluding) the unit heuristic:
normalization, the alias-mapping loops in source order, the `tip_amount`
and `passenger_count` defaults, and `vendor_code`. -/
def detect_pre (f : Frame) : Except String Frame := do
  let f2 ← passengerStep (tipDefaultStep (mapAllFields (normalize_columns f)))
  pure (vendorStep f2)

/-- `detect_and_assign_columns` from the source. -/
def detect_and_assign_columns (f : Frame) : Except String Frame := do
  let f ← detect_pre f
  heuristicStep f

/-- The `trip_duration_seconds` computation (lines 147-150):
`(dropoff - pickup).dt.total_seconds()` when both timestamp columns exist
(per-row `NaT` gives `NaN`), otherwise a constant `NaN` column. -/
def durationStep (f : Frame) : Frame :=
  if f.cols.contains "pickup_datetime" && f.cols.contains "dropoff_datetime" then
    f.assign "trip_duration_seconds" (fun cols row =>
      match rowGet cols row "pickup_datetime", rowGet cols row "dropoff_datetime" with
      | some (.time (some p)), some (.time (some d)) => .num (.fin ((d : ℚ) - (p : ℚ)))
      | _, _ => .num .nan)
  else
    f.assign "trip_duration_seconds" (fun _ _ => .num .nan)

/-- `compute_speed(row)` from `clean_chunk`: `nan` unless duration and
distance are present and positive, else `dist / (td / 3600)`.  A missing
column raises `KeyError` inside the `try`, which the `except` turns into
`nan`. -/
def computeSpeedRow (cols : List String) (row : List Cell) : Cell :=
  match rowGet cols row "trip_duration_seconds", rowGet cols row "trip_distance_km" with
  | some tdc, some dc =>
    let td := cellNum tdc
    let dist := cellNum dc
    if td.isna || td.le (.fin 0) || dist.isna || dist.le (.fin 0) then .num .nan
    else .num (dist.div (td.div (.fin 3600)))
  | _, _ => .num .nan

/-- The value `row.get(c, np.nan)` seen as a float argument. -/
def numOrNan (c : Option Cell) : PyNum :=
  cellNum (c.getD Cell.null)

/-- The `fare_per_km` per-row expression (line 165):
`safe_div(r.get("fare_amount", np.nan), r.get("trip_distance_km", np.nan))`,
with a `None` result stored as a null cell. -/
def farePerKmRow (cols : List String) (row : List Cell) : Cell :=
  match safe_div (some (numOrNan (rowGet cols row "fare_amount")))
      (some (numOrNan (rowGet cols row "trip_distance_km"))) with
  | none => Cell.null
  | some x => .num x

/-- The `tip_pct` per-row expression (line 166):
`safe_div(r.get("tip_amount", 0.0), r.get("fare_amount", np.nan))`. -/
def tipPctRow (cols : List String) (row : List Cell) : Cell :=
  match safe_div
      (some (match rowGet cols row "tip_amount" with
             | some c => cellNum c
             | none => .fin 0))
      (some (numOrNan (rowGet cols row "fare_amount"))) with
  | none => Cell.null
  | some x => .num x

/-- Hour component of a naive epoch-seconds timestamp (`.dt.hour`). -/
def hourOfTs (t : Int) : ℚ :=
  ((t.emod 86400).ediv 3600 : Int)

/-- Full weekday name of an epoch-seconds timestamp (`.dt.day_name()`);
day 0 (1970-01-01) was a Thursday. -/
def dayNameOfTs (t : Int) : String :=
  ["Monday", "Tuesday", "Wednesday", "Thursday", "Friday", "Saturday", "Sunday"].getD
    (((t.ediv 86400) + 3).emod 7).toNat ""

/-- Line 167: `df["hour_of_day"] = df["pickup_datetime"].dt.hour.where(...)`.
The bare `df["pickup_datetime"]` raises `KeyError` when no pickup-datetime
alias matched any input column. -/
def hourStep (f : Frame) : Except String Frame :=
  if f.cols.contains "pickup_datetime" then
    .ok (f.assign "hour_of_day" (fun cols row =>
      match rowGet cols row "pickup_datetime" with
      | some (.time (some t)) => .num (.fin (hourOfTs t))
      | _ => Cell.null))
  else .error "KeyError: pickup_datetime"

/-- Line 168: `df["day_of_week"] = df["pickup_datetime"].dt.day_name().where(...)`. -/
def dayStep (f : Frame) : Except String Frame :=
  if f.cols.contains "pickup_datetime" then
    .ok (f.assign "day_of_week" (fun cols row =>
      match rowGet cols row "pickup_datetime" with
      | some (.time (some t)) => .str (dayNameOfTs t)
      | _ => Cell.null))
  else .error "KeyError: pickup_datetime"

/-- Civil date (year, month, day) from a day count since 1970-01-01,
by the standard Gregorian era decomposition. -/
def civilFromDays (z : Int) : Int × Nat × Nat :=
  let z' := z + 719468
  let era : Int := z'.ediv 146097
  let doe : Nat := (z' - era * 146097).toNat
  let yoe : Nat := (doe - doe / 1460 + doe / 36524 - doe / 146096) / 365
  let doy : Nat := doe - (365 * yoe + yoe / 4 - yoe / 100)
  let mp : Nat := (5 * doy + 2) / 153
  let d : Nat := doy - (153 * mp + 2) / 5 + 1
  let m : Nat := if mp < 10 then mp + 3 else mp - 9
  (yoe + era * 400 + (if m ≤ 2 then 1 else 0), m, d)

/-- Two-digit zero padding. -/
def pad2 (n : Nat) : String :=
  if n < 10 then "0" ++ toString n else toString n

/-- `strftime("%Y-%m-%d %H:%M:%S")` on an epoch-seconds timestamp. -/
def fmtTs (t : Int) : String :=
  let days := t.ediv 86400
  let secs := (t.emod 86400).toNat
  let ymd := civilFromDays days
  toString ymd.1 ++ "-" ++ pad2 ymd.2.1 ++ "-" ++ pad2 ymd.2.2 ++ " " ++
    pad2 (secs / 3600) ++ ":" ++ pad2 (secs % 3600 / 60) ++ ":" ++ pad2 (secs % 60)

/-- Model of `pd.isna(row.get(c))`: an absent column gives `None`, which
`pd.isna` reports as missing. -/
def isnaOpt : Option Cell → Bool
  | none => true
  | some c => c.isna

/-- Python `";".join(reasons)`. -/
def joinSemicolon : List String → String
  | [] => ""
  | [a] => a
  | a :: rest => a ++ ";" ++ joinSemicolon rest

/-- The `dropoff_before_pickup` condition (line 180), evaluated only when
both timestamps are non-NA.  It is written for the cell shapes the
pipeline can actually feed it (datetime cells, since any column named by a
timestamp alias is always passed through `pd.to_datetime`); other non-NA
shapes would raise in Python but are unreachable from `clean_chunk`. -/
def dropoffBeforePickupB (a b : Option Cell) : Bool :=
  match a, b with
  | some (.time (some p)), some (.time (some d)) => decide (d < p)
  | _, _ => false

/-- The `unrealistic_speed` condition (line 201): speed present, not NA,
finite, and above 200. -/
def speedOver200B (sp : Option Cell) : Bool :=
  match sp with
  | some (.num (.fin q)) => decide (200 < q)
  | _ => false

/-- The validator of `clean_chunk` (lines 175-202) on one row, given as the
lookup `row.get`: the accumulated exclusion-reason tags, in source order. -/
def reasons (g : String → Option Cell) : List String :=
  (if isnaOpt (g "pickup_datetime") || isnaOpt (g "dropoff_datetime") then
    ["missing_timestamps"]
   else if dropoffBeforePickupB (g "pickup_datetime") (g "dropoff_datetime") then
    ["dropoff_before_pickup"]
   else [])
  ++ (if !is_valid_coordinate (g "pickup_lat") (g "pickup_lon") then
        ["invalid_pickup_coord"] else [])
  ++ (if !is_valid_coordinate (g "dropoff_lat") (g "dropoff_lon") then
        ["invalid_dropoff_coord"] else [])
  ++ (if isnaOpt (g "trip_distance_km") ||
        (numOrNan (g "trip_distance_km")).lt (.fin 0) then
        ["invalid_distance"] else [])
  ++ (if isnaOpt (g "trip_duration_seconds") ||
        (numOrNan (g "trip_duration_seconds")).le (.fin 0) then
        ["invalid_duration"] else [])
  ++ (if isnaOpt (g "fare_amount") ||
        (numOrNan (g "fare_amount")).lt (.fin 0) then
        ["invalid_fare"] else [])
  ++ (if speedOver200B (g "trip_speed_kmh") then ["unrealistic_speed"] else [])

/-- The numeric columns nulled at lines 218-224 when `pd.isna`. -/
def NUM_NULL_COLS : List String :=
  ["pickup_lat", "pickup_lon", "dropoff_lat", "dropoff_lon",
   "passenger_count", "trip_distance_km", "trip_duration_seconds",
   "fare_amount", "tip_amount", "trip_speed_kmh", "fare_per_km", "tip_pct",
   "hour_of_day"]

/-- Post-processing of one canonical entry (lines 207-224): datetimes are
formatted to MySQL strings or nulled (the pipeline only ever stores
datetime cells there, so other non-null shapes do not occur), and the
numeric columns are nulled when `pd.isna`. -/
def canonEntry (c : String) (v : Cell) : Cell :=
  if c = "pickup_datetime" || c = "dropoff_datetime" then
    match v with
    | .time (some t) => .str (fmtTs t)
    | _ => Cell.null
  else if NUM_NULL_COLS.contains c then
    if v.isna then Cell.null else v
  else v

/-- The canonical record composed for an accepted row (lines 205-224):
each of the 17 canonical columns in order, taken from the row (or `None`
when absent) and post-processed. -/
def canonicalRow (g : String → Option Cell) : List (String × Cell) :=
  CANONICAL_COLS.map (fun c => (c, canonEntry c ((g c).getD Cell.null)))

/-- The accept/reject loop of `clean_chunk` (lines 171-230) over the rows,
each given as its `row.get` lookup: accepted rows become canonical records,
rejected rows contribute their joined reason string. -/
def splitRows : List (String → Option Cell) → List (List (String × Cell)) × List String
  | [] => ([], [])
  | g :: gs =>
    let rest := splitRows gs
    if reasons g = [] then (canonicalRow g :: rest.1, rest.2)
    else (rest.1, joinSemicolon (reasons g) :: rest.2)

/-- The rows of a frame, each as its `row.get` lookup. -/
def rowLookups (f : Frame) : List (String → Option Cell) :=
  f.rows.map (fun r c => rowGet f.cols r c)

/-- `clean_chunk(df)` from the source: normalize and map columns, derive
features, then validate and split the rows into
`(clean_rows, excluded_rows)` (an excluded row is kept only as its joined
reason string, exactly as the source keeps only `{"reasons": ...}`). -/
def clean_chunk (f : Frame) : Except String (List (List (String × Cell)) × List String) := do
  let f ← detect_and_assign_columns f
  let f := durationStep f
  let f := f.assign "trip_speed_kmh" computeSpeedRow
  let f := f.assign "fare_per_km" farePerKmRow
  let f := f.assign "tip_pct" tipPctRow
  let f ← hourStep f
  let f ← dayStep f
  pure (splitRows (rowLookups f))

/-- `insert_rows_mysql` reduced to its accounting effect: the row count it
returns, accumulated batch by batch over sub-batches of `batchSize`
(`count += len(batch)`).  `batchSize = 0` would make Python's
`range(0, n, 0)` raise, so the run-level theorems assume it positive. -/
def insertBatches (batchSize : Nat) : List (List (String × Cell)) → Nat
  | [] => 0
  | r :: rs =>
    if _h : batchSize = 0 then 0
    else
      ((r :: rs).take batchSize).length + insertBatches batchSize ((r :: rs).drop batchSize)
termination_by rows => rows.length
decreasing_by
  simp [List.length_drop]
  omega

/-- The cross-chunk state of `main`: chunk counter, running totals, and the
exclusion log (each entry `(chunk_index, excluded_count, sample_reason)`).
The log models the append-only CSV `data/logs/cleaning_log.csv`; entries
present before the run stay in front. -/
structure RunState where
  chunkIndex : Nat
  totalIn : Nat
  totalClean : Nat
  totalExcluded : Nat
  log : List (Nat × Nat × String)
deriving Repr, DecidableEq

/-- One iteration of the chunk loop of `main` (lines 336-352): count the
rows read, clean the chunk, insert the accepted rows, and append exactly
one audit row `(chunk_index, excluded_count, sample_reason)` to the log,
where the sample reason is the first rejected record's joined reasons or
the empty string. -/
def processChunk (batchSize : Nat) (st : RunState) (f : Frame) : Except String RunState := do
  let idx := st.chunkIndex + 1
  let res ← clean_chunk f
  let inserted := insertBatches batchSize res.1
  pure
    { chunkIndex := idx
      totalIn := st.totalIn + f.rows.length
      totalClean := st.totalClean + inserted
      totalExcluded := st.totalExcluded + res.2.length
      log := st.log ++ [(idx, res.2.length, res.2.headD "")] }

/-- The chunk loop of `main` over the source's chunks, strictly in order.
A `clean_chunk` failure aborts the run, as an uncaught exception does in
the source. -/
def mainLoop (batchSize : Nat) (st : RunState) : List Frame → Except String RunState
  | [] => .ok st
  | c :: cs => do
    let st' ← processChunk batchSize st c
    mainLoop batchSize st' cs

/-- The state at the start of a run: no rows processed yet, and the
pre-existing exclusion-log entries `log0`. -/
def initState (log0 : List (Nat × Nat × String)) : RunState :=
  ⟨0, 0, 0, 0, log0⟩

/-- A fully valid normalized-and-derived row, used to instantiate the
acceptance theorem: a 2016-01-01 08:00-08:15 trip of 5 km, fare 15,
tip 3, inside the bounding box. -/
def exampleValidRow : String → Option Cell := fun c =>
  if c = "pickup_datetime" then some (.time (some 1451635200))
  else if c = "dropoff_datetime" then some (.time (some 1451636100))
  else if c = "pickup_lat" then some (.num (.fin 40.75))
  else if c = "pickup_lon" then some (.num (.fin (-73.98)))
  else if c = "dropoff_lat" then some (.num (.fin 40.76))
  else if c = "dropoff_lon" then some (.num (.fin (-73.97)))
  else if c = "trip_distance_km" then some (.num (.fin 5))
  else if c = "trip_duration_seconds" then some (.num (.fin 900))
  else if c = "fare_amount" then some (.num (.fin 15))
  else if c = "tip_amount" then some (.num (.fin 3))
  else if c = "trip_speed_kmh" then some (.num (.fin 20))
  else if c = "fare_per_km" then some (.num (.fin 3))
  else if c = "tip_pct" then some (.num (.fin 0.2))
  else if c = "hour_of_day" then some (.num (.fin 8))
  else if c = "day_of_week" then some (.str "Friday")
  else if c = "passenger_count" then some (.num (.fin 1))
  else if c = "vendor_code" then some (.str "1")
  else none

/-- A row with an out-of-bounds pickup coordinate (0, 0) and a negative
fare, used to instantiate the multi-reason theorem. -/
def exampleBadRow : String → Option Cell := fun c =>
  if c = "pickup_lat" then some (.num (.fin 0))
  else if c = "pickup_lon" then some (.num (.fin 0))
  else if c = "fare_amount" then some (.num (.fin (-5)))
  else none

/-- A row whose `tip_amount` coerced to `NaN` while `fare_amount` is a
valid 10. -/
def exampleTipNanCols : List String := ["tip_amount", "fare_amount"]
def exampleTipNanRow : List Cell := [.num .nan, .num (.fin 10)]

/-- A row with tip 3 and fare 10. -/
def exampleTipCols : List String := ["tip_amount", "fare_amount"]
def exampleTipRow : List Cell := [.num (.fin 3), .num (.fin 10)]

/-- A row whose distance is positive infinity (for example parsed from a
literal `inf` in the CSV) with fare 10. -/
def exampleInfDistCols : List String := ["fare_amount", "trip_distance_km"]
def exampleInfDistRow : List Cell := [.num (.fin 10), .num .inf]

/-- A row with fare 10 and distance exactly zero. -/
def exampleZeroDistCols : List String := ["fare_amount", "trip_distance_km"]
def exampleZeroDistRow : List Cell := [.num (.fin 10), .num (.fin 0)]

/-- The valid example row with the distance replaced by exactly zero and
the derived speed accordingly `NaN`. -/
def exampleZeroFullRow : String → Option Cell := fun c =>
  if c = "trip_distance_km" then some (.num (.fin 0))
  else if c = "trip_speed_kmh" then some (.num .nan)
  else exampleValidRow c

/-- A raw chunk whose only column is `trip_distance` with values 10 and
12 (miles-like: mean 11 < 200, median 11 < 30). -/
def exampleMilesFrame : Frame := ⟨["trip_distance"], [[.num (.fin 10)], [.num (.fin 12)]]⟩

/-- `detect_pre` of `exampleMilesFrame` (before the unit heuristic). -/
def exampleMilesPre : Frame :=
  ⟨["trip_distance", "trip_distance_km", "tip_amount", "passenger_count", "vendor_code"],
   [[.num (.fin 10), .num (.fin 10), .num (.fin 0), .num (.fin 1), .null],
    [.num (.fin 12), .num (.fin 12), .num (.fin 0), .num (.fin 1), .null]]⟩

/-- A raw chunk whose only column is `trip_distance` with values 300 and
500 (km-like: mean 400 ≥ 200). -/
def exampleKmFrame : Frame := ⟨["trip_distance"], [[.num (.fin 300)], [.num (.fin 500)]]⟩

/-- `detect_pre` of `exampleKmFrame`. -/
def exampleKmPre : Frame :=
  ⟨["trip_distance", "trip_distance_km", "tip_amount", "passenger_count", "vendor_code"],
   [[.num (.fin 300), .num (.fin 300), .num (.fin 0), .num (.fin 1), .null],
    [.num (.fin 500), .num (.fin 500), .num (.fin 0), .num (.fin 1), .null]]⟩

/-- A chunk in which no pickup-datetime alias matches any input column:
its only column is named `foo`. -/
def exampleNoPickupFrame : Frame := ⟨["foo"], [[.num (.fin 1)]]⟩

/-- One step of the audit-log specification: the row appended for chunk
`i` given its `clean_chunk` outcome, followed by the remaining rows (a
failed chunk aborts the run, so nothing further is logged). -/
def logStep (i : Nat) (res : Except String (List (List (String × Cell)) × List String))
    (rest : List (Nat × Nat × String)) : List (Nat × Nat × String) :=
  match res with
  | .ok r => (i, r.2.length, r.2.headD "") :: rest
  | .error _ => []

/-- The audit rows `main` appends for a list of chunks starting at chunk
index `i`: one row per successfully cleaned chunk, carrying the excluded
count and the first rejected record's joined reasons (or the empty
string). -/
def logSpec (i : Nat) : List Frame → List (Nat × Nat × String)
  | [] => []
  | f :: fs => logStep i (clean_chunk f) (logSpec (i + 1) fs)

/-- Column names of a realistic raw chunk (aliases as in the 2016 NYC
dataset). -/
def exampleTripCols : List String :=
  ["pickup_datetime", "dropoff_datetime", "pickup_latitude", "pickup_longitude",
   "dropoff_latitude", "dropoff_longitude", "trip_distance", "fare_amount",
   "tip_amount", "passenger_count", "vendor_id"]

/-- A raw trip row (2016-01-01 08:00 to 08:09, in-bounds coordinates,
fare 15, tip 3) with the given raw distance value. -/
def exampleTripRow (dist : ℚ) : List Cell :=
  [.time (some 1451635200), .time (some 1451635740),
   .num (.fin 40.75), .num (.fin (-73.98)),
   .num (.fin 40.76), .num (.fin (-73.97)),
   .num (.fin dist), .num (.fin 15), .num (.fin 3), .num (.fin 1), .str "1"]

/-- A two-row chunk: one realistic trip (raw distance 25) and one
unrealistically fast trip (raw distance 500 over 9 minutes). -/
def exampleRunChunk : Frame := ⟨exampleTripCols, [exampleTripRow 25, exampleTripRow 500]⟩

/-- The `clean_chunk` output of `exampleRunChunk`: one accepted canonical
record and one excluded reason string. -/
def exampleRunResult : List (List (String × Cell)) × List String :=
  ([[("pickup_datetime", Cell.str "2016-01-01 08:00:00"),
     ("dropoff_datetime", Cell.str "2016-01-01 08:09:00"),
     ("pickup_lat", Cell.num (PyNum.fin (163 / 4))),
     ("pickup_lon", Cell.num (PyNum.fin (-3699 / 50))),
     ("dropoff_lat", Cell.num (PyNum.fin (1019 / 25))),
     ("dropoff_lon", Cell.num (PyNum.fin (-7397 / 100))),
     ("passenger_count", Cell.num (PyNum.fin 1)),
     ("trip_distance_km", Cell.num (PyNum.fin 25)),
     ("trip_duration_seconds", Cell.num (PyNum.fin 540)),
     ("fare_amount", Cell.num (PyNum.fin 15)),
     ("tip_amount", Cell.num (PyNum.fin 3)),
     ("trip_speed_kmh", Cell.num (PyNum.fin (500 / 3))),
     ("fare_per_km", Cell.num (PyNum.fin (3 / 5))),
     ("tip_pct", Cell.num (PyNum.fin (1 / 5))),
     ("hour_of_day", Cell.num (PyNum.fin 8)),
     ("day_of_week", Cell.str "Friday"),
     ("vendor_code", Cell.str "1")]],
   ["unrealistic_speed"])

/-- The unit-conversion decision a chunk receives: the heuristic condition
evaluated on its pre-heuristic frame (false when normalization already
fails). -/
def unitDecision (f : Frame) : Bool :=
  match detect_pre f with
  | .ok f1 => distCondition ((f1.getColVals "trip_distance_km").getD [])
  | .error _ => false

/-- `detect_and_assign_columns` with the unit-conversion decision forced
to `D` instead of recomputed from the chunk; `clean_chunk` coincides with
the `D := unitDecision f` instance (`clean_chunk_eq_forced`). -/
def detect_and_assignD (D : Bool) (f : Frame) : Except String Frame := do
  let f1 ← detect_pre f
  heuristicStepD D f1

/-- `clean_chunk` with the unit-conversion decision forced to `D`. -/
def clean_chunkD (D : Bool) (f : Frame) :
    Except String (List (List (String × Cell)) × List String) := do
  let f ← detect_and_assignD D f
  let f := durationStep f
  let f := f.assign "trip_speed_kmh" computeSpeedRow
  let f := f.assign "fare_per_km" farePerKmRow
  let f := f.assign "tip_pct" tipPctRow
  let f ← hourStep f
  let f ← dayStep f
  pure (splitRows (rowLookups f))

/-- A frame transformation whose column effect depends only on the input
columns and whose row effect is per-row: appending row blocks commutes
with the transformation.  All pure steps of the pipeline have this shape.
-/
def SplitsRows (T : Frame → Frame) : Prop :=
  ∀ (cols : List String) (r1 r2 : List (List Cell)),
    T ⟨cols, r1 ++ r2⟩ =
      ⟨(T ⟨cols, r1⟩).cols, (T ⟨cols, r1⟩).rows ++ (T ⟨cols, r2⟩).rows⟩ ∧
    (T ⟨cols, r2⟩).cols = (T ⟨cols, r1⟩).cols

/-- The `Except`-level analogue of `SplitsRows`: when the step succeeds on
the concatenation of two row blocks, it succeeds on each block separately
and the results concatenate. -/
def SplitsRowsE (T : Frame → Except String Frame) : Prop :=
  ∀ (cols : List String) (r1 r2 : List (List Cell)) (f3 : Frame),
    T ⟨cols, r1 ++ r2⟩ = .ok f3 →
    ∃ f1 f2, T ⟨cols, r1⟩ = .ok f1 ∧ T ⟨cols, r2⟩ = .ok f2 ∧
      f3 = ⟨f1.cols, f1.rows ++ f2.rows⟩ ∧ f2.cols = f1.cols

/-- The pure feature-derivation chain of `clean_chunk` (lines 147-165):
duration, speed, fare-per-km and tip-percentage columns. -/
def pureChain (f : Frame) : Frame :=
  (((durationStep f).assign "trip_speed_kmh" computeSpeedRow).assign
      "fare_per_km" farePerKmRow).assign "tip_pct" tipPctRow

/-- The frame-level part of `clean_chunkD`: everything before the
row-validation split. -/
def frameStage (D : Bool) (f : Frame) : Except String Frame :=
  detect_and_assignD D f >>= fun f1 => hourStep (pureChain f1) >>= dayStep

/-- The payload of a successful `clean_chunk` outcome (and `([], [])` on
an error); names concrete outcomes in instantiations. -/
def okOrEmpty (r : Except String (List (List (String × Cell)) × List String)) :
    List (List (String × Cell)) × List String :=
  match r with
  | .ok p => p
  | .error _ => ([], [])

/-- The realistic trip of `exampleRunChunk` (raw distance 25) alone in
its own chunk. -/
def exampleSoloChunk : Frame := ⟨exampleTripCols, [exampleTripRow 25]⟩

/-- A partition of a two-trip dataset (raw distances 10 and 12) into two
single-row chunks; every part is judged miles-like, as is the whole. -/
def examplePartition : List (List (List Cell)) :=
  [[exampleTripRow 10], [exampleTripRow 12]]

/-! ## Helper lemmas shared by the claim theorems. -/

theorem splitRows_append (a b : List (String → Option Cell)) :
    splitRows (a ++ b) =
      ((splitRows a).1 ++ (splitRows b).1, (splitRows a).2 ++ (splitRows b).2) := by
  induction a with
  | nil => simp [splitRows]
  | cons g gs ih =>
    by_cases h : reasons g = [] <;> simp [splitRows, h, ih]

theorem joinSemicolon_mem_split {t : String} {l : List String} (h : t ∈ l) :
    ∃ p q, joinSemicolon l = p ++ t ++ q := by
  induction l with
  | nil => cases h
  | cons a rest ih =>
    rcases List.mem_cons.mp h with h1 | h2
    · subst h1
      cases rest with
      | nil => exact ⟨"", "", by simp [joinSemicolon]⟩
      | cons b bs => exact ⟨"", ";" ++ joinSemicolon (b :: bs), by simp [joinSemicolon, String.append_assoc]⟩
    · obtain ⟨p, q, hpq⟩ := ih h2
      cases rest with
      | nil => cases h2
      | cons b bs =>
        refine ⟨a ++ ";" ++ p, q, ?_⟩
        simp [joinSemicolon, hpq, String.append_assoc]

/-- C1: a row whose normalized record has both timestamps present with
dropoff at or after pickup, pickup and dropoff coordinates inside the
bounding box [40.4, 40.95] x [-74.35, -73.7], positive distance, positive
derived duration, non-negative fare, and derived speed at most 200 km/h,
gets zero reasons from the validator and is accepted, contributing exactly
one clean-output record at its position, with exactly the 17 canonical
fields in canonical order. -/
theorem claim1_accept_path
    (g : String → Option Cell)
    (p d : Int) (pla plo dla dlo dist dur fare : ℚ) (sp : PyNum)
    (hpk : g "pickup_datetime" = some (.time (some p)))
    (hdr : g "dropoff_datetime" = some (.time (some d)))
    (hord : p ≤ d)
    (hpla : g "pickup_lat" = some (.num (.fin pla)))
    (hplo : g "pickup_lon" = some (.num (.fin plo)))
    (hdla : g "dropoff_lat" = some (.num (.fin dla)))
    (hdlo : g "dropoff_lon" = some (.num (.fin dlo)))
    (hb1 : MIN_LAT ≤ pla) (hb2 : pla ≤ MAX_LAT)
    (hb3 : MIN_LON ≤ plo) (hb4 : plo ≤ MAX_LON)
    (hb5 : MIN_LAT ≤ dla) (hb6 : dla ≤ MAX_LAT)
    (hb7 : MIN_LON ≤ dlo) (hb8 : dlo ≤ MAX_LON)
    (hdist : g "trip_distance_km" = some (.num (.fin dist))) (hdistpos : 0 < dist)
    (hdur : g "trip_duration_seconds" = some (.num (.fin dur))) (hdurpos : 0 < dur)
    (hfare : g "fare_amount" = some (.num (.fin fare))) (hfarenn : 0 ≤ fare)
    (hsp : g "trip_speed_kmh" = some (.num sp))
    (hsple : sp.le (.fin 200) = true) :
    reasons g = [] ∧
    (canonicalRow g).map Prod.fst = CANONICAL_COLS ∧
    ∀ gs1 gs2, splitRows (gs1 ++ g :: gs2) =
      ((splitRows gs1).1 ++ canonicalRow g :: (splitRows gs2).1,
       (splitRows gs1).2 ++ (splitRows gs2).2) := by
  have hdp : ¬ (d < p) := by omega
  have hd0 : ¬ (dist < 0) := by linarith
  have hdur0 : ¬ (dur ≤ 0) := by linarith
  have hf0 : ¬ (fare < 0) := by linarith
  have hr : reasons g = [] := by
    rcases sp with _ | _ | _ | q
    · simp [PyNum.le] at hsple
    · simp [PyNum.le] at hsple
    · simp [reasons, hpk, hdr, hpla, hplo, hdla, hdlo, hdist, hdur, hfare, hsp,
        isnaOpt, Cell.isna, PyNum.isna, is_valid_coordinate, cellNum, numOrNan,
        dropoffBeforePickupB, speedOver200B, PyNum.le, PyNum.lt, hdp, hd0, hdur0, hf0, hb1, hb2, hb3, hb4, hb5, hb6, hb7, hb8]
    · have hq : ¬ (200 < q) := by
        simp [PyNum.le] at hsple
        linarith
      simp [reasons, hpk, hdr, hpla, hplo, hdla, hdlo, hdist, hdur, hfare, hsp,
        isnaOpt, Cell.isna, PyNum.isna, is_valid_coordinate, cellNum, numOrNan,
        dropoffBeforePickupB, speedOver200B, PyNum.le, PyNum.lt, hdp, hd0, hdur0, hf0, hb1, hb2, hb3, hb4, hb5, hb6, hb7, hb8, hq]
  refine ⟨hr, ?_, ?_⟩
  · rfl
  · intro gs1 gs2
    rw [splitRows_append]
    simp [splitRows, hr]

/-- Witness for C1: the acceptance theorem applied to the concrete valid
example row. -/
theorem claim1_accept_path_witness :
    reasons exampleValidRow = [] ∧
    (canonicalRow exampleValidRow).map Prod.fst = CANONICAL_COLS :=
  ⟨(claim1_accept_path exampleValidRow 1451635200 1451636100
      40.75 (-73.98) 40.76 (-73.97) 5 900 15 (.fin 20)
      rfl rfl (by norm_num) rfl rfl rfl rfl
      (by norm_num [MIN_LAT]) (by norm_num [MAX_LAT])
      (by norm_num [MIN_LON]) (by norm_num [MAX_LON])
      (by norm_num [MIN_LAT]) (by norm_num [MAX_LAT])
      (by norm_num [MIN_LON]) (by norm_num [MAX_LON])
      rfl (by norm_num) rfl (by norm_num) rfl (by norm_num) rfl (by decide)).1,
   (claim1_accept_path exampleValidRow 1451635200 1451636100
      40.75 (-73.98) 40.76 (-73.97) 5 900 15 (.fin 20)
      rfl rfl (by norm_num) rfl rfl rfl rfl
      (by norm_num [MIN_LAT]) (by norm_num [MAX_LAT])
      (by norm_num [MIN_LON]) (by norm_num [MAX_LON])
      (by norm_num [MIN_LAT]) (by norm_num [MAX_LAT])
      (by norm_num [MIN_LON]) (by norm_num [MAX_LON])
      rfl (by norm_num) rfl (by norm_num) rfl (by norm_num) rfl (by decide)).2.1⟩

/-- C2: the validator accumulates all applicable reason tags instead of
stopping at the first: any record with an out-of-bounds pickup coordinate
and a negative fare carries both `invalid_pickup_coord` and `invalid_fare`
in its reason list, and its joined rejection reason string contains both
tags as substrings. -/
theorem claim2_multi_reason
    (g : String → Option Cell)
    (pla plo fare : ℚ)
    (hpla : g "pickup_lat" = some (.num (.fin pla)))
    (hplo : g "pickup_lon" = some (.num (.fin plo)))
    (hout : ¬ (MIN_LAT ≤ pla ∧ pla ≤ MAX_LAT ∧ MIN_LON ≤ plo ∧ plo ≤ MAX_LON))
    (hfare : g "fare_amount" = some (.num (.fin fare)))
    (hneg : fare < 0) :
    "invalid_pickup_coord" ∈ reasons g ∧
    "invalid_fare" ∈ reasons g ∧
    (∃ p q, joinSemicolon (reasons g) = p ++ "invalid_pickup_coord" ++ q) ∧
    (∃ p q, joinSemicolon (reasons g) = p ++ "invalid_fare" ++ q) := by
  have hcoord : is_valid_coordinate (g "pickup_lat") (g "pickup_lon") = false := by
    cases hval : is_valid_coordinate (g "pickup_lat") (g "pickup_lon") with
    | false => rfl
    | true =>
      exfalso
      apply hout
      rw [hpla, hplo] at hval
      simp [is_valid_coordinate, Cell.isna, PyNum.isna, cellNum, PyNum.le] at hval
      tauto
  have hmem1 : "invalid_pickup_coord" ∈ reasons g := by
    simp [reasons, hcoord]
  have hmem2 : "invalid_fare" ∈ reasons g := by
    simp [reasons, hfare, isnaOpt, Cell.isna, PyNum.isna, numOrNan, cellNum, PyNum.lt, hneg]
  exact ⟨hmem1, hmem2, joinSemicolon_mem_split hmem1, joinSemicolon_mem_split hmem2⟩

/-- Witness for C2: the multi-reason theorem applied to the concrete row
with pickup coordinate (0, 0) and fare -5. -/
theorem claim2_multi_reason_witness :
    "invalid_pickup_coord" ∈ reasons exampleBadRow ∧
    "invalid_fare" ∈ reasons exampleBadRow :=
  ⟨(claim2_multi_reason exampleBadRow 0 0 (-5) rfl rfl
      (by norm_num [MIN_LAT]) rfl (by norm_num)).1,
   (claim2_multi_reason exampleBadRow 0 0 (-5) rfl rfl
      (by norm_num [MIN_LAT]) rfl (by norm_num)).2.1⟩

/-- Counterexample to C6: a record whose `tip_amount` value is `NaN`
(coercion failure) while `fare_amount` is present and non-zero still gets
a null `tip_pct`, so "tip_pct is null only when fare_amount is missing or
zero" is false. -/
theorem claim6_counterexample :
    rowGet exampleTipNanCols exampleTipNanRow "fare_amount" = some (.num (.fin 10)) ∧
    (10 : ℚ) ≠ 0 ∧
    tipPctRow exampleTipNanCols exampleTipNanRow = Cell.null := by
  refine ⟨rfl, by norm_num, rfl⟩

/-- C6 (amended): for a record with both the tip and fare columns present,
`tip_pct` is null exactly when the tip value is NaN, the fare value is NaN,
or the fare value is zero; otherwise it equals tip divided by fare.  (The
spec's "tip defaults to 0" covers only an absent tip column, not a
present-but-unparseable tip value.) -/
theorem claim6_amended (cols : List String) (row : List Cell) (tip fare : PyNum)
    (htip : rowGet cols row "tip_amount" = some (.num tip))
    (hfare : rowGet cols row "fare_amount" = some (.num fare)) :
    (tipPctRow cols row = Cell.null ↔ (tip.isna = true ∨ fare.isna = true ∨ fare = .fin 0)) ∧
    (tip.isna = false → fare.isna = false → fare ≠ .fin 0 →
      tipPctRow cols row = .num (tip.div fare)) := by
  by_cases h1 : tip.isna <;> by_cases h2 : fare.isna <;> by_cases h3 : fare = PyNum.fin 0 <;>
    simp [tipPctRow, htip, hfare, safe_div, numOrNan, cellNum, h1, h2, h3]

/-- Witness for the amended C6: tip 3 over fare 10 yields 3/10. -/
theorem claim6_amended_witness :
    tipPctRow exampleTipCols exampleTipRow = .num ((PyNum.fin 3).div (.fin 10)) :=
  (claim6_amended exampleTipCols exampleTipRow (.fin 3) (.fin 10) rfl rfl).2 rfl rfl (by decide)

/-- Counterexample to C7: a record with a non-finite (infinite) distance
and fare 10 gets `fare_per_km = 0.0`, not null, so "distance non-finite
implies fare_per_km is null" is false on the code (`pd.isna(inf)` is
false, so `safe_div` does not guard infinities). -/
theorem claim7_counterexample :
    (numOrNan (rowGet exampleInfDistCols exampleInfDistRow "trip_distance_km")).isfinite = false ∧
    farePerKmRow exampleInfDistCols exampleInfDistRow = .num (.fin 0) := by
  exact ⟨rfl, rfl⟩

/-- C7 (amended): `fare_per_km` is null whenever the distance value is
exactly zero, or the distance value is missing/NaN, or the fare value is
missing/NaN; the division is guarded, so (in this total model) no
exception is raised.  Infinite operands, however, pass `pd.isna` and can
produce non-null values (see the counterexample). -/
theorem claim7_amended (cols : List String) (row : List Cell)
    (h : numOrNan (rowGet cols row "trip_distance_km") = .fin 0 ∨
         (numOrNan (rowGet cols row "trip_distance_km")).isna = true ∨
         (numOrNan (rowGet cols row "fare_amount")).isna = true) :
    farePerKmRow cols row = Cell.null := by
  rcases h with h | h | h <;>
    by_cases h2 : (numOrNan (rowGet cols row "fare_amount")).isna <;>
      by_cases h3 : (numOrNan (rowGet cols row "trip_distance_km")).isna <;>
        simp_all [farePerKmRow, safe_div]

/-- Witness for the amended C7: zero distance yields a null fare_per_km. -/
theorem claim7_amended_witness :
    farePerKmRow exampleZeroDistCols exampleZeroDistRow = Cell.null :=
  claim7_amended exampleZeroDistCols exampleZeroDistRow (Or.inl rfl)

/-- C10: a record whose distance is present and exactly zero is not tagged
`invalid_distance` (only missing or negative distance is); its derived
speed is `NaN` and its `fare_per_km` is null; and a zero-distance record
satisfying every other rule is accepted with zero reasons. -/
theorem claim10_zero_distance :
    (∀ g : String → Option Cell, g "trip_distance_km" = some (.num (.fin 0)) →
      "invalid_distance" ∉ reasons g) ∧
    (∀ cols row, rowGet cols row "trip_distance_km" = some (.num (.fin 0)) →
      computeSpeedRow cols row = .num .nan ∧ farePerKmRow cols row = Cell.null) ∧
    (∀ (g : String → Option Cell) (p d : Int) (pla plo dla dlo dur fare : ℚ),
      g "pickup_datetime" = some (.time (some p)) →
      g "dropoff_datetime" = some (.time (some d)) →
      p ≤ d →
      g "pickup_lat" = some (.num (.fin pla)) →
      g "pickup_lon" = some (.num (.fin plo)) →
      g "dropoff_lat" = some (.num (.fin dla)) →
      g "dropoff_lon" = some (.num (.fin dlo)) →
      MIN_LAT ≤ pla → pla ≤ MAX_LAT → MIN_LON ≤ plo → plo ≤ MAX_LON →
      MIN_LAT ≤ dla → dla ≤ MAX_LAT → MIN_LON ≤ dlo → dlo ≤ MAX_LON →
      g "trip_distance_km" = some (.num (.fin 0)) →
      g "trip_duration_seconds" = some (.num (.fin dur)) → 0 < dur →
      g "fare_amount" = some (.num (.fin fare)) → 0 ≤ fare →
      g "trip_speed_kmh" = some (.num .nan) →
      reasons g = []) := by
  refine ⟨?_, ?_, ?_⟩
  · intro g h
    simp [reasons, h, isnaOpt, Cell.isna, PyNum.isna, numOrNan, cellNum, PyNum.lt]
    split_ifs <;> simp_all
  · intro cols row h
    constructor
    · cases htd : rowGet cols row "trip_duration_seconds" with
      | none => simp [computeSpeedRow, htd, h]
      | some tdc =>
        simp [computeSpeedRow, htd, h, cellNum, PyNum.le]
    · exact claim7_amended cols row (Or.inl (by simp [numOrNan, h, cellNum]))
  · intro g p d pla plo dla dlo dur fare hpk hdr hord hpla hplo hdla hdlo
      hb1 hb2 hb3 hb4 hb5 hb6 hb7 hb8 hdist hdur hdurpos hfare hfarenn hsp
    have hdp : ¬ (d < p) := by omega
    have hdur0 : ¬ (dur ≤ 0) := by linarith
    have hf0 : ¬ (fare < 0) := by linarith
    simp [reasons, hpk, hdr, hpla, hplo, hdla, hdlo, hdist, hdur, hfare, hsp,
      isnaOpt, Cell.isna, PyNum.isna, is_valid_coordinate, cellNum, numOrNan,
      dropoffBeforePickupB, speedOver200B, PyNum.le, PyNum.lt, hdp, hdur0, hf0,
      hb1, hb2, hb3, hb4, hb5, hb6, hb7, hb8]

/-- Witness for C10: the zero-distance variant of the valid example row is
accepted, and the zero-distance derived fields evaluate to NaN/null. -/
theorem claim10_zero_distance_witness :
    reasons exampleZeroFullRow = [] ∧
    computeSpeedRow exampleZeroDistCols exampleZeroDistRow = .num .nan ∧
    farePerKmRow exampleZeroDistCols exampleZeroDistRow = Cell.null :=
  ⟨claim10_zero_distance.2.2 exampleZeroFullRow 1451635200 1451636100
      40.75 (-73.98) 40.76 (-73.97) 900 15
      rfl rfl (by norm_num) rfl rfl rfl rfl
      (by norm_num [MIN_LAT]) (by norm_num [MAX_LAT])
      (by norm_num [MIN_LON]) (by norm_num [MAX_LON])
      (by norm_num [MIN_LAT]) (by norm_num [MAX_LAT])
      (by norm_num [MIN_LON]) (by norm_num [MAX_LON])
      rfl rfl (by norm_num) rfl (by norm_num) rfl,
   (claim10_zero_distance.2.1 exampleZeroDistCols exampleZeroDistRow rfl).1,
   (claim10_zero_distance.2.1 exampleZeroDistCols exampleZeroDistRow rfl).2⟩

theorem colIdx_lt_length {cols : List String} {c : String} {i : Nat}
    (h : colIdx cols c = some i) : i < cols.length := by
  induction cols generalizing i with
  | nil => simp [colIdx] at h
  | cons x xs ih =>
    rw [colIdx, List.indexOf?_cons] at h
    by_cases hx : (x == c) = true
    · simp [hx] at h
      simp [List.length_cons]
      omega
    · simp [hx] at h
      obtain ⟨j, hj, hij⟩ := h
      have := ih hj
      simp [List.length_cons]
      omega

theorem colIdx_contains {cols : List String} {c : String} {i : Nat}
    (h : colIdx cols c = some i) : cols.contains c = true := by
  induction cols generalizing i with
  | nil => simp [colIdx] at h
  | cons x xs ih =>
    rw [colIdx, List.indexOf?_cons] at h
    by_cases hx : (x == c) = true
    · simp [List.contains_cons]
      exact Or.inl (beq_iff_eq.mp hx).symm
    · simp [hx] at h
      obtain ⟨j, hj, _⟩ := h
      simp [List.contains_cons]
      exact Or.inr (by simpa using ih hj)

theorem getColVals_assign (f : Frame) (dst : String)
    (gfun : List String → List Cell → Cell) (i : Nat)
    (hIdx : colIdx f.cols dst = some i)
    (hwf : ∀ r ∈ f.rows, r.length = f.cols.length) :
    (f.assign dst gfun).getColVals dst = some (f.rows.map (fun r => gfun f.cols r)) := by
  have hcont := colIdx_contains hIdx
  have hlt := colIdx_lt_length hIdx
  unfold Frame.assign Frame.getColVals assignCols assignRow
  simp only [hcont, if_true, hIdx, Option.map_some', List.map_map]
  congr 1
  apply List.map_congr_left
  intro r hr
  have hrl : i < r.length := by rw [hwf r hr]; exact hlt
  simp [Function.comp, List.getD, List.getElem?_set, hrl]

theorem PyNum.add_nan_left (x : PyNum) : PyNum.add .nan x = .nan := by
  cases x <;> rfl

theorem PyNum.add_nan_right (x : PyNum) : PyNum.add x .nan = .nan := by
  cases x <;> rfl

theorem foldl_add_nan (l : List PyNum) : l.foldl PyNum.add .nan = .nan := by
  induction l with
  | nil => rfl
  | cons x xs ih => simp [List.foldl, PyNum.add_nan_left, ih]

theorem foldl_add_mem_nan (l : List PyNum) : ∀ acc, .nan ∈ l → l.foldl PyNum.add acc = .nan := by
  induction l with
  | nil => intro acc h; cases h
  | cons x xs ih =>
    intro acc h
    rcases List.mem_cons.mp h with h1 | h2
    · subst h1
      simp [List.foldl, PyNum.add_nan_right, foldl_add_nan]
    · exact ih _ h2

theorem pySum_nan {l : List PyNum} (h : .nan ∈ l) : pySum l = .nan :=
  foldl_add_mem_nan l _ h

theorem pyMean_nan {l : List PyNum} (h : .nan ∈ l) : pyMean l = .nan := by
  simp [pyMean, pySum_nan h, PyNum.div]

theorem le200_lt_false {m : PyNum} (h : (PyNum.fin 200).le m = true) :
    m.lt (.fin 200) = false := by
  cases m with
  | nan => simp [PyNum.le] at h
  | inf => rfl
  | ninf => simp [PyNum.le] at h
  | fin q =>
    simp [PyNum.le] at h
    simp [PyNum.lt]
    linarith

set_option maxHeartbeats 1000000 in
/-- C3: the per-chunk unit heuristic.  For a chunk whose mapped distance
column (a float column, `hnum`) has non-null values with mean under 200
and median under 30, `detect_and_assign_columns` multiplies every distance
value in the chunk by 1.60934; for a chunk whose mean is at least 200 it
returns the frame with every distance value exactly as mapped. -/
theorem claim3_unit_heuristic (f f1 : Frame) (col : List Cell)
    (hpre : detect_pre f = .ok f1)
    (hcol : f1.getColVals "trip_distance_km" = some col)
    (hnum : ∀ c ∈ col, c.isNum = true)
    (hwf : ∀ r ∈ f1.rows, r.length = f1.cols.length) :
    ((pyMean ((dropnaCells col).map cellNum)).lt (.fin 200) = true →
     (pyMedian ((dropnaCells col).map cellNum)).lt (.fin 30) = true →
      detect_and_assign_columns f =
        .ok (f1.assign "trip_distance_km"
          (fun cols row => Cell.num ((cellNum ((rowGet cols row "trip_distance_km").getD Cell.null)).mul (.fin milesToKm)))) ∧
      (f1.assign "trip_distance_km"
          (fun cols row => Cell.num ((cellNum ((rowGet cols row "trip_distance_km").getD Cell.null)).mul (.fin milesToKm)))).getColVals "trip_distance_km" =
        some (col.map (fun c => Cell.num ((cellNum c).mul (.fin milesToKm))))) ∧
    ((PyNum.fin 200).le (pyMean ((dropnaCells col).map cellNum)) = true →
      detect_and_assign_columns f = .ok f1 ∧
      f1.getColVals "trip_distance_km" = some col) := by
  have hchain : detect_and_assign_columns f = heuristicStep f1 := by
    simp [detect_and_assign_columns, hpre, Bind.bind, Except.bind]
  obtain ⟨i, hi⟩ : ∃ i, colIdx f1.cols "trip_distance_km" = some i := by
    unfold Frame.getColVals at hcol
    cases hci : colIdx f1.cols "trip_distance_km" with
    | none => rw [hci] at hcol; simp at hcol
    | some i => exact ⟨i, rfl⟩
  have hcolval : col = f1.rows.map (fun r => r.getD i Cell.null) := by
    unfold Frame.getColVals at hcol
    rw [hi] at hcol
    simp only [Option.map_some', Option.some_inj] at hcol
    exact hcol.symm
  have hany : (dropnaCells col).any (fun c => !c.isNum) = false := by
    cases hx : (dropnaCells col).any (fun c => !c.isNum)
    · rfl
    · exfalso
      obtain ⟨c, hc, hcn⟩ := List.any_eq_true.mp hx
      have := hnum c (List.mem_of_mem_filter hc)
      simp [this] at hcn
  have hanycol : col.any (fun c => !c.isNum) = false := by
    cases hx : col.any (fun c => !c.isNum)
    · rfl
    · exfalso
      obtain ⟨c, hc, hcn⟩ := List.any_eq_true.mp hx
      have := hnum c hc
      simp [this] at hcn
  constructor
  · intro hmlt hmdlt
    have hse : (dropnaCells col).isEmpty = false := by
      cases hse : (dropnaCells col).isEmpty
      · rfl
      · exfalso
        have he : dropnaCells col = [] := List.isEmpty_iff.mp hse
        rw [he] at hmlt
        simp [pyMean, pySum, PyNum.div, PyNum.lt] at hmlt
    have hcond : distCondition col = true := by
      simp [distCondition, hse, hmlt, hmdlt]
    constructor
    · rw [hchain]
      unfold heuristicStep
      rw [hcol]
      simp only [Option.getD_some, hcond]
      unfold heuristicStepD
      rw [hcol]
      simp only [hse, hany, hanycol, Bool.false_eq_true, if_false, if_true]
    · have h2 := getColVals_assign f1 "trip_distance_km"
        (fun cols row => Cell.num ((cellNum ((rowGet cols row "trip_distance_km").getD Cell.null)).mul (.fin milesToKm))) i hi hwf
      exact h2.trans (by
        rw [hcolval, List.map_map]
        exact congrArg some (List.map_congr_left (fun r hr => by
          simp [Function.comp, rowGet, hi, List.getD])))
  · intro hge
    have hlt200 := le200_lt_false hge
    have hcond : distCondition col = false := by
      simp [distCondition, hlt200]
    refine ⟨?_, hcol⟩
    rw [hchain]
    unfold heuristicStep
    rw [hcol]
    simp only [Option.getD_some, hcond]
    unfold heuristicStepD
    rw [hcol]
    simp only [hany, Bool.false_eq_true, if_false]
    split <;> rfl

set_option maxRecDepth 4000 in
/-- Witness for C3: the miles-like chunk (10, 12) is converted by 1.60934;
the km-like chunk (300, 500) is left exactly as mapped. -/
theorem claim3_unit_heuristic_witness :
    (detect_and_assign_columns exampleMilesFrame =
      .ok (exampleMilesPre.assign "trip_distance_km"
        (fun cols row => Cell.num ((cellNum ((rowGet cols row "trip_distance_km").getD Cell.null)).mul (.fin milesToKm)))) ∧
     (exampleMilesPre.assign "trip_distance_km"
        (fun cols row => Cell.num ((cellNum ((rowGet cols row "trip_distance_km").getD Cell.null)).mul (.fin milesToKm)))).getColVals "trip_distance_km" =
       some [Cell.num ((cellNum (Cell.num (.fin 10))).mul (.fin milesToKm)),
             Cell.num ((cellNum (Cell.num (.fin 12))).mul (.fin milesToKm))]) ∧
    (detect_and_assign_columns exampleKmFrame = .ok exampleKmPre ∧
     exampleKmPre.getColVals "trip_distance_km" = some [Cell.num (.fin 300), Cell.num (.fin 500)]) := by
  constructor
  · exact (claim3_unit_heuristic exampleMilesFrame exampleMilesPre
      [Cell.num (.fin 10), Cell.num (.fin 12)]
      (by with_unfolding_all rfl) (by with_unfolding_all rfl)
      (by with_unfolding_all decide) (by with_unfolding_all decide)).1
      (by with_unfolding_all decide) (by with_unfolding_all decide)
  · exact (claim3_unit_heuristic exampleKmFrame exampleKmPre
      [Cell.num (.fin 300), Cell.num (.fin 500)]
      (by with_unfolding_all rfl) (by with_unfolding_all rfl)
      (by with_unfolding_all decide) (by with_unfolding_all decide)).2
      (by with_unfolding_all decide)

/-- C5 (documents the code bug): on a chunk where no pickup-datetime alias
matched any input column, `clean_chunk` raises `KeyError` at the
`hour_of_day` derivation (line 167 reads `df["pickup_datetime"]`
unguarded), instead of degrading the derived fields to null as the spec's
never-raises contract requires. -/
theorem claim5_keyerror_on_missing_pickup :
    clean_chunk exampleNoPickupFrame = .error "KeyError: pickup_datetime" := by
  with_unfolding_all rfl

theorem assign_rows_length (f : Frame) (dst : String) (g : List String → List Cell → Cell) :
    (f.assign dst g).rows.length = f.rows.length := by
  simp [Frame.assign]

theorem mapField_rows_length (f : Frame) (al : List String) (dst : String) (conv : Cell → Cell) :
    (mapField f al dst conv).rows.length = f.rows.length := by
  unfold mapField
  cases findAlias f.cols al with
  | none => rfl
  | some src => simp [assign_rows_length]

theorem exMapM_ok_length {a b : Type} (f : a → Except String b) :
    ∀ (l : List a) (l' : List b), exMapM f l = .ok l' → l'.length = l.length := by
  intro l
  induction l with
  | nil => intro l' h; simp [exMapM] at h; simp [← h]
  | cons x xs ih =>
    intro l' h
    unfold exMapM at h
    cases hx : f x with
    | error e => simp [hx, Bind.bind, Except.bind] at h
    | ok y =>
      simp only [hx, Bind.bind, Except.bind] at h
      cases hm : exMapM f xs with
      | error e => simp [hm] at h
      | ok ys =>
        simp [hm] at h
        simp [← h, List.length_cons, ih ys hm]

theorem passengerStep_rows_length (f f1 : Frame) (h : passengerStep f = .ok f1) :
    f1.rows.length = f.rows.length := by
  unfold passengerStep at h
  by_cases hc : f.cols.contains "passenger_count"
  · simp only [hc, if_true] at h
    cases hm : exMapM (fun r => do
        let c ← passengerCell ((rowGet f.cols r "passenger_count").getD Cell.null)
        pure (assignRow f.cols "passenger_count" c r)) f.rows with
    | error e => rw [hm] at h; simp [Bind.bind, Except.bind] at h
    | ok rows =>
      rw [hm] at h
      simp [Bind.bind, Except.bind, pure, Except.pure] at h
      rw [← h]
      exact exMapM_ok_length _ _ _ hm
  · simp only [hc, if_false] at h
    simp [pure, Except.pure] at h
    rw [← h]
    simp [assign_rows_length]

theorem vendorStep_rows_length (f : Frame) :
    (vendorStep f).rows.length = f.rows.length := by
  unfold vendorStep
  split <;> try split
  all_goals simp [assign_rows_length]

theorem heuristicStepD_rows_length (D : Bool) (f f1 : Frame)
    (h : heuristicStepD D f = .ok f1) : f1.rows.length = f.rows.length := by
  unfold heuristicStepD at h
  cases hg : f.getColVals "trip_distance_km" with
  | none => rw [hg] at h; simp at h; rw [← h]
  | some col =>
    rw [hg] at h
    simp only at h
    split at h
    · simp at h; rw [← h]
    · split at h
      · simp at h
      · split at h
        · split at h
          · simp at h
          · simp at h; rw [← h]; simp [assign_rows_length]
        · simp at h; rw [← h]

theorem durationStep_rows_length (f : Frame) :
    (durationStep f).rows.length = f.rows.length := by
  unfold durationStep
  split <;> simp [assign_rows_length]

theorem hourStep_rows_length (f f1 : Frame) (h : hourStep f = .ok f1) :
    f1.rows.length = f.rows.length := by
  unfold hourStep at h
  split at h
  · simp at h; rw [← h]; simp [assign_rows_length]
  · simp at h

theorem dayStep_rows_length (f f1 : Frame) (h : dayStep f = .ok f1) :
    f1.rows.length = f.rows.length := by
  unfold dayStep at h
  split at h
  · simp at h; rw [← h]; simp [assign_rows_length]
  · simp at h

theorem mapAllFields_rows_length (f : Frame) :
    (mapAllFields f).rows.length = f.rows.length := by
  simp [mapAllFields, mapField_rows_length]

theorem tipDefaultStep_rows_length (f : Frame) :
    (tipDefaultStep f).rows.length = f.rows.length := by
  unfold tipDefaultStep
  split
  · rfl
  · simp [assign_rows_length]

theorem normalize_columns_rows_length (f : Frame) :
    (normalize_columns f).rows.length = f.rows.length := rfl

theorem detect_pre_rows_length (f f1 : Frame) (h : detect_pre f = .ok f1) :
    f1.rows.length = f.rows.length := by
  unfold detect_pre at h
  cases hp : passengerStep (tipDefaultStep (mapAllFields (normalize_columns f))) with
  | error e => rw [hp] at h; simp [Bind.bind, Except.bind] at h
  | ok f2 =>
    rw [hp] at h
    simp [Bind.bind, Except.bind, pure, Except.pure] at h
    rw [← h]
    rw [vendorStep_rows_length, passengerStep_rows_length _ _ hp,
      tipDefaultStep_rows_length, mapAllFields_rows_length,
      normalize_columns_rows_length]

theorem splitRows_length (gs : List (String → Option Cell)) :
    (splitRows gs).1.length + (splitRows gs).2.length = gs.length := by
  induction gs with
  | nil => simp [splitRows]
  | cons g rest ih =>
    by_cases h : reasons g = [] <;> simp [splitRows, h] <;> omega

theorem detect_and_assign_rows_length (f f1 : Frame)
    (h : detect_and_assign_columns f = .ok f1) : f1.rows.length = f.rows.length := by
  unfold detect_and_assign_columns at h
  cases hp : detect_pre f with
  | error e => rw [hp] at h; simp [Bind.bind, Except.bind] at h
  | ok f2 =>
    rw [hp] at h
    simp only [Bind.bind, Except.bind] at h
    unfold heuristicStep at h
    rw [heuristicStepD_rows_length _ _ _ h, detect_pre_rows_length _ _ hp]

theorem rowLookups_length (f : Frame) : (rowLookups f).length = f.rows.length := by
  simp [rowLookups]

theorem clean_chunk_rows_length (f : Frame) (p : List (List (String × Cell)) × List String)
    (h : clean_chunk f = .ok p) : p.1.length + p.2.length = f.rows.length := by
  unfold clean_chunk at h
  cases ha : detect_and_assign_columns f with
  | error e => rw [ha] at h; simp [Bind.bind, Except.bind] at h
  | ok fa =>
    rw [ha] at h
    simp only [Bind.bind, Except.bind] at h
    cases hh : hourStep (((durationStep fa).assign "trip_speed_kmh" computeSpeedRow
        |>.assign "fare_per_km" farePerKmRow)
        |>.assign "tip_pct" tipPctRow) with
    | error e => rw [hh] at h; simp at h
    | ok f6 =>
      rw [hh] at h
      simp only at h
      cases hd : dayStep f6 with
      | error e => rw [hd] at h; simp at h
      | ok f7 =>
        rw [hd] at h
        simp [pure, Except.pure] at h
        rw [← h, splitRows_length, rowLookups_length]
        rw [dayStep_rows_length _ _ hd, hourStep_rows_length _ _ hh]
        simp [assign_rows_length, durationStep_rows_length]
        exact detect_and_assign_rows_length _ _ ha

theorem insertBatches_length (b : Nat) (hb : 0 < b) :
    ∀ rows : List (List (String × Cell)), insertBatches b rows = rows.length := by
  have key : ∀ (n : Nat) (rows : List (List (String × Cell))), rows.length ≤ n →
      insertBatches b rows = rows.length := by
    intro n
    induction n with
    | zero =>
      intro rows h
      cases rows with
      | nil => simp [insertBatches]
      | cons r rs => simp at h
    | succ n ih =>
      intro rows h
      cases rows with
      | nil => simp [insertBatches]
      | cons r rs =>
        rw [insertBatches.eq_def]
        simp only [Nat.pos_iff_ne_zero.mp hb, dite_false]
        rw [ih ((r :: rs).drop b) (by simp [List.length_drop]; simp at h; omega)]
        simp [List.length_take, List.length_drop]
        omega
  exact fun rows => key rows.length rows le_rfl


theorem mainLoop_log (b : Nat) : ∀ (chunks : List Frame) (st st' : RunState),
    mainLoop b st chunks = .ok st' →
    st'.log = st.log ++ logSpec (st.chunkIndex + 1) chunks ∧
    (logSpec (st.chunkIndex + 1) chunks).length = chunks.length := by
  intro chunks
  induction chunks with
  | nil =>
    intro st st' h
    simp [mainLoop] at h
    subst h
    simp [logSpec]
  | cons c cs ih =>
    intro st st' h
    rw [mainLoop] at h
    unfold processChunk at h
    cases hc : clean_chunk c with
    | error e => rw [hc] at h; simp [Bind.bind, Except.bind] at h
    | ok res =>
      rw [hc] at h
      simp only [Bind.bind, Except.bind, pure, Except.pure] at h
      obtain ⟨h1, h2⟩ := ih _ _ h
      constructor
      · rw [h1]
        simp [logSpec, logStep, hc]
      · simp [logSpec, logStep, hc] at h2 ⊢
        exact h2

theorem mainLoop_totals (b : Nat) (hb : 0 < b) : ∀ (chunks : List Frame) (st st' : RunState),
    mainLoop b st chunks = .ok st' →
    st'.totalIn + st.totalClean + st.totalExcluded =
      st.totalIn + st'.totalClean + st'.totalExcluded := by
  intro chunks
  induction chunks with
  | nil =>
    intro st st' h
    simp [mainLoop] at h
    subst h
    omega
  | cons c cs ih =>
    intro st st' h
    rw [mainLoop] at h
    unfold processChunk at h
    cases hc : clean_chunk c with
    | error e => rw [hc] at h; simp [Bind.bind, Except.bind] at h
    | ok res =>
      rw [hc] at h
      simp only [Bind.bind, Except.bind, pure, Except.pure] at h
      have hstep := ih _ _ h
      have hrows := clean_chunk_rows_length c res hc
      have hins := insertBatches_length b hb res.1
      simp only [hins] at hstep
      omega

/-- C8: a successful run appends exactly one audit row per processed
chunk — chunk index, excluded-row count, and the first rejected record's
joined reasons (or the empty string) as `logSpec` records — after the
pre-existing log entries, and continuing the run only ever extends the
log (prior entries are never rewritten or truncated). -/
theorem claim8_exclusion_log (b : Nat) (log0 : List (Nat × Nat × String))
    (chunks : List Frame) (st : RunState)
    (h : mainLoop b (initState log0) chunks = .ok st) :
    st.log = log0 ++ logSpec 1 chunks ∧
    (logSpec 1 chunks).length = chunks.length ∧
    (∀ chunks2 st2, mainLoop b st chunks2 = .ok st2 → ∃ t, st2.log = st.log ++ t) := by
  obtain ⟨h1, h2⟩ := mainLoop_log b chunks (initState log0) st h
  refine ⟨h1, h2, ?_⟩
  intro chunks2 st2 h2'
  exact ⟨_, (mainLoop_log b chunks2 st st2 h2').1⟩

/-- Witness for C8: the concrete one-chunk run logs exactly one row,
`(1, 1, "unrealistic_speed")`, appended to the pre-existing log. -/
theorem claim8_exclusion_log_witness :
    [(0, 0, ""), (1, 1, "unrealistic_speed")] = [(0, 0, "")] ++ logSpec 1 [exampleRunChunk] ∧
    (logSpec 1 [exampleRunChunk]).length = [exampleRunChunk].length :=
  ⟨(claim8_exclusion_log 1000 [(0, 0, "")] [exampleRunChunk]
      (⟨1, 2, 1, 1, [(0, 0, ""), (1, 1, "unrealistic_speed")]⟩ : RunState)
      (by with_unfolding_all rfl)).1,
   (claim8_exclusion_log 1000 [(0, 0, "")] [exampleRunChunk]
      (⟨1, 2, 1, 1, [(0, 0, ""), (1, 1, "unrealistic_speed")]⟩ : RunState)
      (by with_unfolding_all rfl)).2.1⟩

/-- C9: every input row of a chunk lands in exactly one of the two output
collections, so the chunk's row count is the accepted count plus the
excluded count; consequently a successful run (with a positive sub-batch
size, so every insert succeeds and reports its batch sizes) ends with
rows read = rows inserted + rows excluded. -/
theorem claim9_row_partition :
    (∀ (f : Frame) (p : List (List (String × Cell)) × List String),
      clean_chunk f = .ok p → f.rows.length = p.1.length + p.2.length) ∧
    (∀ (b : Nat) (log0 : List (Nat × Nat × String)) (chunks : List Frame) (st : RunState),
      0 < b → mainLoop b (initState log0) chunks = .ok st →
      st.totalIn = st.totalClean + st.totalExcluded) := by
  constructor
  · intro f p h
    exact (clean_chunk_rows_length f p h).symm
  · intro b log0 chunks st hb h
    have := mainLoop_totals b hb chunks (initState log0) st h
    simp [initState] at this
    omega

/-- Witness for C9: the concrete two-row chunk splits 1 + 1, and the
concrete run ends with 2 read = 1 inserted + 1 excluded. -/
theorem claim9_row_partition_witness :
    exampleRunChunk.rows.length =
      exampleRunResult.1.length + exampleRunResult.2.length ∧
    (2 : Nat) = 1 + 1 :=
  ⟨claim9_row_partition.1 exampleRunChunk exampleRunResult (by with_unfolding_all rfl),
   by
    have := claim9_row_partition.2 1000 [] [exampleRunChunk]
      ⟨1, 2, 1, 1, [(1, 1, "unrealistic_speed")]⟩ (by norm_num)
      (by with_unfolding_all rfl)
    exact this⟩

theorem heuristicStep_eq_forced (f : Frame) :
    heuristicStep f = heuristicStepD (distCondition ((f.getColVals "trip_distance_km").getD [])) f := rfl

theorem clean_chunk_eq_forced (f : Frame) :
    clean_chunk f = clean_chunkD (unitDecision f) f := by
  unfold clean_chunk clean_chunkD detect_and_assign_columns detect_and_assignD unitDecision
  cases hp : detect_pre f with
  | error e => simp [Bind.bind, Except.bind]
  | ok f1 => simp [Bind.bind, Except.bind, heuristicStep_eq_forced]

theorem assign_splits (dst : String) (g : List String → List Cell → Cell) :
    SplitsRows (fun f => f.assign dst g) := by
  intro cols r1 r2
  simp [Frame.assign]

theorem normalize_splits : SplitsRows normalize_columns := by
  intro cols r1 r2
  simp [normalize_columns]

theorem mapField_splits (al : List String) (dst : String) (conv : Cell → Cell) :
    SplitsRows (fun f => mapField f al dst conv) := by
  intro cols r1 r2
  unfold mapField
  cases hfa : findAlias cols al with
  | none => simp [hfa]
  | some src => simp [hfa, Frame.assign]

theorem splits_comp {T1 T2 : Frame → Frame}
    (h1 : SplitsRows T1) (h2 : SplitsRows T2) : SplitsRows (fun f => T2 (T1 f)) := by
  intro cols r1 r2
  dsimp only
  obtain ⟨e1, c1⟩ := h1 cols r1 r2
  obtain ⟨e2, c2⟩ := h2 (T1 ⟨cols, r1⟩).cols (T1 ⟨cols, r1⟩).rows (T1 ⟨cols, r2⟩).rows
  have eta1 : (⟨(T1 ⟨cols, r1⟩).cols, (T1 ⟨cols, r1⟩).rows⟩ : Frame) = T1 ⟨cols, r1⟩ := rfl
  have eta2 : (⟨(T1 ⟨cols, r1⟩).cols, (T1 ⟨cols, r2⟩).rows⟩ : Frame) = T1 ⟨cols, r2⟩ := by
    rw [← c1]
  rw [eta1, eta2] at e2
  rw [eta2] at c2
  constructor
  · rw [e1, e2]
  · rw [c2, eta1]

theorem tipDefault_splits : SplitsRows tipDefaultStep := by
  intro cols r1 r2
  unfold tipDefaultStep
  by_cases hc : "tip_amount" ∈ cols <;> simp [hc, Frame.assign]

theorem duration_splits : SplitsRows durationStep := by
  intro cols r1 r2
  unfold durationStep
  by_cases h1 : "pickup_datetime" ∈ cols <;> by_cases h2 : "dropoff_datetime" ∈ cols <;>
    simp [h1, h2, Frame.assign]

theorem vendor_splits : SplitsRows vendorStep := by
  intro cols r1 r2
  unfold vendorStep
  by_cases h1 : "vendor_id" ∈ cols
  · simp [h1, Frame.assign]
  · by_cases h2 : "vendor" ∈ cols <;> simp [h1, h2, Frame.assign]

theorem mapAll_splits : SplitsRows mapAllFields := by
  have h1 : SplitsRows (fun f : Frame => mapField f pickupAliases "pickup_datetime" Cell.toDatetime) :=
    mapField_splits _ _ _
  have h2 := splits_comp h1 (mapField_splits dropoffAliases "dropoff_datetime" Cell.toDatetime)
  have h3 := splits_comp h2 (mapField_splits pickupLonAliases "pickup_lon" Cell.toNumeric)
  have h4 := splits_comp h3 (mapField_splits pickupLatAliases "pickup_lat" Cell.toNumeric)
  have h5 := splits_comp h4 (mapField_splits dropoffLonAliases "dropoff_lon" Cell.toNumeric)
  have h6 := splits_comp h5 (mapField_splits dropoffLatAliases "dropoff_lat" Cell.toNumeric)
  have h7 := splits_comp h6 (mapField_splits distanceAliases "trip_distance_km" Cell.toNumeric)
  have h8 := splits_comp h7 (mapField_splits fareAliases "fare_amount" Cell.toNumeric)
  have h9 := splits_comp h8 (mapField_splits tipAliases "tip_amount" Cell.toNumeric)
  exact h9

theorem set_eq_self {α : Type} (r : List α) (i : Nat) (v : α)
    (h : r[i]? = some v) : r.set i v = r := by
  induction r generalizing i with
  | nil => simp at h
  | cons x xs ih =>
    cases i with
    | zero => simp at h; simp [List.set, h]
    | succ n => simp at h; simp [List.set, ih n h]

theorem exMapM_append_ok {a b : Type} (f : a → Except String b) :
    ∀ (l1 l2 : List a) (l : List b), exMapM f (l1 ++ l2) = .ok l →
    ∃ la lb, exMapM f l1 = .ok la ∧ exMapM f l2 = .ok lb ∧ l = la ++ lb := by
  intro l1
  induction l1 with
  | nil =>
    intro l2 l h
    exact ⟨[], l, rfl, by simpa using h, by simp⟩
  | cons x xs ih =>
    intro l2 l h
    rw [List.cons_append] at h
    unfold exMapM at h
    cases hx : f x with
    | error e => rw [hx] at h; simp [Bind.bind, Except.bind] at h
    | ok y =>
      rw [hx] at h
      simp only [Bind.bind, Except.bind] at h
      cases hm : exMapM f (xs ++ l2) with
      | error e => rw [hm] at h; simp at h
      | ok ys =>
        rw [hm] at h
        simp at h
        obtain ⟨la, lb, h1, h2, h3⟩ := ih l2 ys hm
        refine ⟨y :: la, lb, ?_, h2, by simp [← h, h3]⟩
        unfold exMapM
        rw [hx]
        simp only [Bind.bind, Except.bind, h1]

theorem hourStep_append (cols : List String) (r1 r2 : List (List Cell)) (f3 : Frame)
    (h : hourStep ⟨cols, r1 ++ r2⟩ = .ok f3) :
    ∃ f1 f2, hourStep ⟨cols, r1⟩ = .ok f1 ∧ hourStep ⟨cols, r2⟩ = .ok f2 ∧
      f3 = ⟨f1.cols, f1.rows ++ f2.rows⟩ ∧ f2.cols = f1.cols := by
  by_cases hcb : cols.contains "pickup_datetime" = true
  · simp only [hourStep, hcb, if_true, Except.ok.injEq] at h ⊢
    refine ⟨_, _, rfl, rfl, ?_, by simp [Frame.assign]⟩
    rw [← h]
    simp [Frame.assign]
  · simp only [hourStep, hcb, if_false] at h
    simp at h

theorem dayStep_append (cols : List String) (r1 r2 : List (List Cell)) (f3 : Frame)
    (h : dayStep ⟨cols, r1 ++ r2⟩ = .ok f3) :
    ∃ f1 f2, dayStep ⟨cols, r1⟩ = .ok f1 ∧ dayStep ⟨cols, r2⟩ = .ok f2 ∧
      f3 = ⟨f1.cols, f1.rows ++ f2.rows⟩ ∧ f2.cols = f1.cols := by
  by_cases hcb : cols.contains "pickup_datetime" = true
  · simp only [dayStep, hcb, if_true, Except.ok.injEq] at h ⊢
    refine ⟨_, _, rfl, rfl, ?_, by simp [Frame.assign]⟩
    rw [← h]
    simp [Frame.assign]
  · simp only [dayStep, hcb, if_false] at h
    simp at h

theorem heuristicPart_false (cols : List String) (i : Nat)
    (hci : colIdx cols "trip_distance_km" = some i) (r : List (List Cell))
    (hsany : (dropnaCells (r.map (fun row => row[i]?.getD Cell.null))).any (fun c => !c.isNum) = false) :
    heuristicStepD false ⟨cols, r⟩ = .ok ⟨cols, r⟩ := by
  unfold heuristicStepD
  have e0 : Frame.getColVals ⟨cols, r⟩ "trip_distance_km" =
      some (r.map (fun row => row[i]?.getD Cell.null)) := by
    simp [Frame.getColVals, hci, List.getD_eq_getElem?_getD]
  rw [e0]
  by_cases hd : (dropnaCells (r.map (fun row => row[i]?.getD Cell.null))).isEmpty <;>
    simp [hd, hsany]

theorem heuristicPart_true (cols : List String) (i : Nat)
    (hci : colIdx cols "trip_distance_km" = some i) (r : List (List Cell))
    (hany : (r.map (fun row => row[i]?.getD Cell.null)).any (fun c => !c.isNum) = false) :
    heuristicStepD true ⟨cols, r⟩ =
      .ok (Frame.assign ⟨cols, r⟩ "trip_distance_km"
        (fun cols row => Cell.num ((cellNum ((rowGet cols row "trip_distance_km").getD Cell.null)).mul (.fin milesToKm)))) := by
  unfold heuristicStepD
  have e0 : Frame.getColVals ⟨cols, r⟩ "trip_distance_km" =
      some (r.map (fun row => row[i]?.getD Cell.null)) := by
    simp [Frame.getColVals, hci, List.getD_eq_getElem?_getD]
  rw [e0]
  have hsany : (dropnaCells (r.map (fun row => row[i]?.getD Cell.null))).any (fun c => !c.isNum) = false := by
    cases hx : (dropnaCells (r.map (fun row => row[i]?.getD Cell.null))).any (fun c => !c.isNum)
    · rfl
    · exfalso
      obtain ⟨c, hc, hcn⟩ := List.any_eq_true.mp hx
      have hc2 : c ∈ r.map (fun row => row[i]?.getD Cell.null) := List.mem_of_mem_filter hc
      have := List.any_eq_false.mp hany c hc2
      simp_all
  by_cases hd : (dropnaCells (r.map (fun row => row[i]?.getD Cell.null))).isEmpty
  · simp only [hd, if_true, Except.ok.injEq]
    have hrowfix : ∀ row ∈ r, assignRow cols "trip_distance_km"
        (Cell.num ((cellNum ((rowGet cols row "trip_distance_km").getD Cell.null)).mul (.fin milesToKm))) row = row := by
      intro row hrow
      have hcell : (row[i]?.getD Cell.null) ∈ r.map (fun row => row[i]?.getD Cell.null) :=
        List.mem_map_of_mem _ hrow
      have hnum : (row[i]?.getD Cell.null).isNum = true := by
        have := List.any_eq_false.mp hany _ hcell
        simp_all
      have hna : (row[i]?.getD Cell.null).isna = true := by
        have hempty := List.isEmpty_iff.mp hd
        by_contra hna
        have hmem : (row[i]?.getD Cell.null) ∈ dropnaCells (r.map (fun row => row[i]?.getD Cell.null)) := by
          unfold dropnaCells
          rw [List.mem_filter]
          exact ⟨hcell, by simpa using hna⟩
        rw [hempty] at hmem
        cases hmem
      have hgetE : row[i]? = some (Cell.num PyNum.nan) := by
        cases hgi : row[i]? with
        | none => simp [hgi, Cell.isNum] at hnum
        | some c =>
          simp only [hgi, Option.getD_some] at hnum hna
          cases c with
          | num x =>
            cases x <;> simp_all [Cell.isna, PyNum.isna]
          | time t => simp [Cell.isNum] at hnum
          | str s => simp [Cell.isNum] at hnum
          | null => simp [Cell.isNum] at hnum
      unfold assignRow
      rw [hci]
      have hval : Cell.num ((cellNum ((rowGet cols row "trip_distance_km").getD Cell.null)).mul (.fin milesToKm)) = Cell.num PyNum.nan := by
        unfold rowGet
        rw [hci]
        simp only [Option.bind_eq_bind, Option.some_bind]
        rw [List.get?_eq_getElem?, hgetE]
        simp [cellNum, PyNum.mul]
      rw [hval]
      exact set_eq_self row i _ hgetE
    unfold Frame.assign
    have hmapeq : r.map (fun row => assignRow cols "trip_distance_km"
        ((fun cols row => Cell.num ((cellNum ((rowGet cols row "trip_distance_km").getD Cell.null)).mul (.fin milesToKm))) cols row) row) = r := by
      calc r.map _ = r.map id := List.map_congr_left (fun row hrow => hrowfix row hrow)
        _ = r := List.map_id r
    rw [hmapeq]
    have hcolseq : assignCols cols "trip_distance_km" = cols := by
      unfold assignCols
      rw [if_pos (colIdx_contains hci)]
    rw [hcolseq]
  · simp only [hd, Bool.false_eq_true, if_false, hsany, hany, if_true]

theorem heuristicStepD_append (D : Bool) (cols : List String) (r1 r2 : List (List Cell)) (f3 : Frame)
    (h : heuristicStepD D ⟨cols, r1 ++ r2⟩ = .ok f3) :
    ∃ f1 f2, heuristicStepD D ⟨cols, r1⟩ = .ok f1 ∧ heuristicStepD D ⟨cols, r2⟩ = .ok f2 ∧
      f3 = ⟨f1.cols, f1.rows ++ f2.rows⟩ ∧ f2.cols = f1.cols := by
  cases hci : colIdx cols "trip_distance_km" with
  | none =>
    have e0 : ∀ rows : List (List Cell), Frame.getColVals ⟨cols, rows⟩ "trip_distance_km" = none := by
      intro rows
      simp [Frame.getColVals, hci]
    unfold heuristicStepD at h ⊢
    rw [e0] at h
    rw [e0, e0]
    simp only [Except.ok.injEq] at h
    exact ⟨⟨cols, r1⟩, ⟨cols, r2⟩, rfl, rfl, by rw [← h], rfl⟩
  | some i =>
    have e0 : ∀ rows : List (List Cell), Frame.getColVals ⟨cols, rows⟩ "trip_distance_km" =
        some (rows.map (fun row => row[i]?.getD Cell.null)) := by
      intro rows
      simp [Frame.getColVals, hci, List.getD_eq_getElem?_getD]
    have hsplit : (r1 ++ r2).map (fun row => row[i]?.getD Cell.null) =
        r1.map (fun row => row[i]?.getD Cell.null) ++ r2.map (fun row => row[i]?.getD Cell.null) :=
      List.map_append _ _ _
    have hdsplit : dropnaCells ((r1 ++ r2).map (fun row => row[i]?.getD Cell.null)) =
        dropnaCells (r1.map (fun row => row[i]?.getD Cell.null)) ++
        dropnaCells (r2.map (fun row => row[i]?.getD Cell.null)) := by
      rw [hsplit]
      exact List.filter_append _ _
    by_cases hd : (dropnaCells ((r1 ++ r2).map (fun row => row[i]?.getD Cell.null))).isEmpty
    · -- no non-null distance value anywhere: nothing happens in any chunk
      have hd1 : (dropnaCells (r1.map (fun row => row[i]?.getD Cell.null))).isEmpty = true := by
        rw [hdsplit] at hd
        simp [List.isEmpty_iff] at hd ⊢
        exact hd.1
      have hd2 : (dropnaCells (r2.map (fun row => row[i]?.getD Cell.null))).isEmpty = true := by
        rw [hdsplit] at hd
        simp [List.isEmpty_iff] at hd ⊢
        exact hd.2
      unfold heuristicStepD at h ⊢
      rw [e0] at h
      rw [e0, e0]
      simp only [hd, if_true, Except.ok.injEq] at h
      simp only [hd1, hd2, if_true]
      exact ⟨⟨cols, r1⟩, ⟨cols, r2⟩, rfl, rfl, by rw [← h], rfl⟩
    · -- some non-null distance values exist in the combined chunk
      have hsany : ((dropnaCells ((r1 ++ r2).map (fun row => row[i]?.getD Cell.null))).any
          (fun c => !c.isNum)) = false := by
        cases hx : (dropnaCells ((r1 ++ r2).map (fun row => row[i]?.getD Cell.null))).any
            (fun c => !c.isNum)
        · rfl
        · exfalso
          unfold heuristicStepD at h
          rw [e0] at h
          simp only [hd, Bool.false_eq_true, if_false, hx, if_true] at h
          cases h
      cases D with
      | false =>
        have hsany' := hsany
        rw [hdsplit, List.any_append] at hsany'
        obtain ⟨hs1, hs2⟩ := Bool.or_eq_false_iff.mp hsany'
        have hwhole : heuristicStepD false ⟨cols, r1 ++ r2⟩ = .ok ⟨cols, r1 ++ r2⟩ :=
          heuristicPart_false cols i hci (r1 ++ r2) hsany
        rw [hwhole] at h
        simp only [Except.ok.injEq] at h
        exact ⟨⟨cols, r1⟩, ⟨cols, r2⟩,
          heuristicPart_false cols i hci r1 hs1,
          heuristicPart_false cols i hci r2 hs2,
          by rw [← h], rfl⟩
      | true =>
        have hcolany : (((r1 ++ r2).map (fun row => row[i]?.getD Cell.null)).any
            (fun c => !c.isNum)) = false := by
          cases hx : ((r1 ++ r2).map (fun row => row[i]?.getD Cell.null)).any (fun c => !c.isNum)
          · rfl
          · exfalso
            unfold heuristicStepD at h
            rw [e0] at h
            simp only [hd, Bool.false_eq_true, if_false, hsany, if_true, hx] at h
            cases h
        have hcolany' := hcolany
        rw [hsplit, List.any_append] at hcolany'
        obtain ⟨hc1, hc2⟩ := Bool.or_eq_false_iff.mp hcolany'
        have hwhole := heuristicPart_true cols i hci (r1 ++ r2) hcolany
        rw [hwhole] at h
        simp only [Except.ok.injEq] at h
        obtain ⟨ea, ca⟩ := assign_splits "trip_distance_km"
          (fun cols row => Cell.num ((cellNum ((rowGet cols row "trip_distance_km").getD Cell.null)).mul (.fin milesToKm)))
          cols r1 r2
        dsimp only at ea ca
        refine ⟨_, _, heuristicPart_true cols i hci r1 hc1, heuristicPart_true cols i hci r2 hc2, ?_, ca⟩
        rw [← h, ea]

theorem passengerStep_append (cols : List String) (r1 r2 : List (List Cell)) (f3 : Frame)
    (h : passengerStep ⟨cols, r1 ++ r2⟩ = .ok f3) :
    ∃ f1 f2, passengerStep ⟨cols, r1⟩ = .ok f1 ∧ passengerStep ⟨cols, r2⟩ = .ok f2 ∧
      f3 = ⟨f1.cols, f1.rows ++ f2.rows⟩ ∧ f2.cols = f1.cols := by
  by_cases hcb : cols.contains "passenger_count" = true
  · simp only [passengerStep, hcb, if_true] at h ⊢
    cases hm : exMapM (fun r => do
        let c ← passengerCell ((rowGet cols r "passenger_count").getD Cell.null)
        pure (assignRow cols "passenger_count" c r)) (r1 ++ r2) with
    | error e => rw [hm] at h; simp [Bind.bind, Except.bind] at h
    | ok rows =>
      rw [hm] at h
      simp only [Bind.bind, Except.bind, pure, Except.pure, Except.ok.injEq] at h
      obtain ⟨la, lb, h1, h2, h3⟩ := exMapM_append_ok _ r1 r2 rows hm
      refine ⟨⟨assignCols cols "passenger_count", la⟩,
              ⟨assignCols cols "passenger_count", lb⟩, ?_, ?_, ?_, rfl⟩
      · rw [h1]
        simp [Bind.bind, Except.bind, pure, Except.pure]
      · rw [h2]
        simp [Bind.bind, Except.bind, pure, Except.pure]
      · rw [← h, h3]
  · simp only [passengerStep, hcb, Bool.false_eq_true, if_false, pure, Except.pure,
      Except.ok.injEq] at h ⊢
    refine ⟨_, _, rfl, rfl, ?_, by simp [Frame.assign]⟩
    rw [← h]
    simp [Frame.assign]

theorem splitsE_comp {T1 T2 : Frame → Except String Frame}
    (h1 : SplitsRowsE T1) (h2 : SplitsRowsE T2) :
    SplitsRowsE (fun f => T1 f >>= T2) := by
  intro cols r1 r2 f3 h
  dsimp only at h
  cases ht : T1 ⟨cols, r1 ++ r2⟩ with
  | error e => rw [ht] at h; simp [Bind.bind, Except.bind] at h
  | ok fm =>
    rw [ht] at h
    simp only [Bind.bind, Except.bind] at h
    obtain ⟨fa, fb, ha, hb, hm, hcols⟩ := h1 cols r1 r2 fm ht
    subst hm
    obtain ⟨ga, gb, hga, hgb, hg, hgc⟩ := h2 fa.cols fa.rows fb.rows f3 h
    have etaA : (⟨fa.cols, fa.rows⟩ : Frame) = fa := rfl
    have etaB : (⟨fa.cols, fb.rows⟩ : Frame) = fb := by rw [← hcols]
    rw [etaA] at hga
    rw [etaB] at hgb
    refine ⟨ga, gb, ?_, ?_, hg, hgc⟩
    · dsimp only
      rw [ha]
      simp only [Bind.bind, Except.bind, hga]
    · dsimp only
      rw [hb]
      simp only [Bind.bind, Except.bind, hgb]

theorem hourStep_splitsE : SplitsRowsE hourStep := hourStep_append

theorem dayStep_splitsE : SplitsRowsE dayStep := dayStep_append

theorem detect_pre_splitsE : SplitsRowsE detect_pre := by
  have hP1 : SplitsRows (fun f => tipDefaultStep (mapAllFields (normalize_columns f))) :=
    splits_comp (splits_comp normalize_splits mapAll_splits) tipDefault_splits
  intro cols r1 r2 f3 h
  unfold detect_pre at h ⊢
  obtain ⟨e1, c1⟩ := hP1 cols r1 r2
  dsimp only at e1 c1
  generalize hA : tipDefaultStep (mapAllFields (normalize_columns ⟨cols, r1⟩)) = A at e1 c1 h ⊢
  generalize hB : tipDefaultStep (mapAllFields (normalize_columns ⟨cols, r2⟩)) = B at e1 c1 h ⊢
  obtain ⟨Ac, Ar⟩ := A
  obtain ⟨Bc, Br⟩ := B
  dsimp only at e1 c1
  rw [e1] at h
  cases hp : passengerStep ⟨Ac, Ar ++ Br⟩ with
  | error e => rw [hp] at h; simp [Bind.bind, Except.bind] at h
  | ok fp =>
    rw [hp] at h
    simp only [Bind.bind, Except.bind, pure, Except.pure, Except.ok.injEq] at h
    obtain ⟨pa, pb, hpa, hpb, hpm, hpc⟩ := passengerStep_append _ _ _ _ hp
    obtain ⟨pac, par⟩ := pa
    obtain ⟨pbc, pbr⟩ := pb
    dsimp only at hpc hpm
    obtain ⟨ev, cv⟩ := vendor_splits pac par pbr
    refine ⟨vendorStep ⟨pac, par⟩, vendorStep ⟨pac, pbr⟩, ?_, ?_, ?_, cv⟩
    · rw [hpa]
      simp [Bind.bind, Except.bind, pure, Except.pure]
    · rw [c1, hpb, hpc]
      simp [Bind.bind, Except.bind, pure, Except.pure]
    · rw [← h, hpm, ev]

theorem splitsE_pure_comp {P : Frame → Frame} {Q : Frame → Except String Frame}
    (hP : SplitsRows P) (hQ : SplitsRowsE Q) : SplitsRowsE (fun f => Q (P f)) := by
  intro cols r1 r2 f3 h
  dsimp only at h
  obtain ⟨e1, c1⟩ := hP cols r1 r2
  rw [e1] at h
  obtain ⟨f1, f2, h1, h2, h3, h4⟩ :=
    hQ (P ⟨cols, r1⟩).cols (P ⟨cols, r1⟩).rows (P ⟨cols, r2⟩).rows f3 h
  refine ⟨f1, f2, h1, ?_, h3, h4⟩
  rw [← c1] at h2
  exact h2

theorem frameStage_splitsE (D : Bool) : SplitsRowsE (frameStage D) := by
  have hP1 : SplitsRows (fun f : Frame => durationStep f) := duration_splits
  have hP2 := splits_comp hP1 (assign_splits "trip_speed_kmh" computeSpeedRow)
  have hP3 := splits_comp hP2 (assign_splits "fare_per_km" farePerKmRow)
  have hP4 := splits_comp hP3 (assign_splits "tip_pct" tipPctRow)
  have hP : SplitsRows pureChain := hP4
  have hQ : SplitsRowsE (fun f => hourStep f >>= dayStep) :=
    splitsE_comp hourStep_splitsE dayStep_splitsE
  have hPQ : SplitsRowsE (fun f => hourStep (pureChain f) >>= dayStep) :=
    splitsE_pure_comp hP hQ
  have hD : SplitsRowsE (detect_and_assignD D) :=
    splitsE_comp detect_pre_splitsE (heuristicStepD_append D)
  exact splitsE_comp hD hPQ

theorem clean_chunkD_as_stage (D : Bool) (f : Frame) :
    clean_chunkD D f = frameStage D f >>= fun g => pure (splitRows (rowLookups g)) := by
  unfold clean_chunkD frameStage pureChain
  cases hd : detect_and_assignD D f with
  | error e => simp [Bind.bind, Except.bind]
  | ok fd =>
    simp only [Bind.bind, Except.bind]
    cases hh : hourStep ((((durationStep fd).assign "trip_speed_kmh" computeSpeedRow).assign
        "fare_per_km" farePerKmRow).assign "tip_pct" tipPctRow) with
    | error e => rfl
    | ok fh =>
      cases hdd : dayStep fh <;> rfl

theorem detect_and_assignD_rows_length (D : Bool) (f f1 : Frame)
    (h : detect_and_assignD D f = .ok f1) : f1.rows.length = f.rows.length := by
  unfold detect_and_assignD at h
  cases hp : detect_pre f with
  | error e => rw [hp] at h; simp [Bind.bind, Except.bind] at h
  | ok f2 =>
    rw [hp] at h
    simp only [Bind.bind, Except.bind] at h
    rw [heuristicStepD_rows_length _ _ _ h, detect_pre_rows_length _ _ hp]

theorem clean_chunkD_rows_length (D : Bool) (f : Frame)
    (p : List (List (String × Cell)) × List String)
    (h : clean_chunkD D f = .ok p) : p.1.length + p.2.length = f.rows.length := by
  unfold clean_chunkD at h
  cases ha : detect_and_assignD D f with
  | error e => rw [ha] at h; simp [Bind.bind, Except.bind] at h
  | ok fa =>
    rw [ha] at h
    simp only [Bind.bind, Except.bind] at h
    cases hh : hourStep (((durationStep fa).assign "trip_speed_kmh" computeSpeedRow
        |>.assign "fare_per_km" farePerKmRow)
        |>.assign "tip_pct" tipPctRow) with
    | error e => rw [hh] at h; simp at h
    | ok f6 =>
      rw [hh] at h
      simp only at h
      cases hd : dayStep f6 with
      | error e => rw [hd] at h; simp at h
      | ok f7 =>
        rw [hd] at h
        simp [pure, Except.pure] at h
        rw [← h, splitRows_length, rowLookups_length]
        rw [dayStep_rows_length _ _ hd, hourStep_rows_length _ _ hh]
        simp [assign_rows_length, durationStep_rows_length]
        exact detect_and_assignD_rows_length _ _ _ ha

theorem rowLookups_frame_append (f1 f2 : Frame) (hc : f2.cols = f1.cols) :
    rowLookups ⟨f1.cols, f1.rows ++ f2.rows⟩ = rowLookups f1 ++ rowLookups f2 := by
  simp [rowLookups, hc]

theorem clean_chunkD_append (D : Bool) (cols : List String) (r1 r2 : List (List Cell))
    (p : List (List (String × Cell)) × List String)
    (h : clean_chunkD D ⟨cols, r1 ++ r2⟩ = .ok p) :
    ∃ p1 p2, clean_chunkD D ⟨cols, r1⟩ = .ok p1 ∧ clean_chunkD D ⟨cols, r2⟩ = .ok p2 ∧
      p = (p1.1 ++ p2.1, p1.2 ++ p2.2) := by
  rw [clean_chunkD_as_stage] at h
  cases hs : frameStage D ⟨cols, r1 ++ r2⟩ with
  | error e => rw [hs] at h; simp [Bind.bind, Except.bind] at h
  | ok g =>
    rw [hs] at h
    simp only [Bind.bind, Except.bind, pure, Except.pure, Except.ok.injEq] at h
    obtain ⟨g1, g2, h1, h2, h3, h4⟩ := frameStage_splitsE D cols r1 r2 g hs
    refine ⟨splitRows (rowLookups g1), splitRows (rowLookups g2), ?_, ?_, ?_⟩
    · rw [clean_chunkD_as_stage, h1]
      simp [Bind.bind, Except.bind, pure, Except.pure]
    · rw [clean_chunkD_as_stage, h2]
      simp [Bind.bind, Except.bind, pure, Except.pure]
    · rw [← h, h3, rowLookups_frame_append g1 g2 h4, splitRows_append]

theorem exMapM_congr {a b : Type} (f g : a → Except String b) :
    ∀ (l : List a), (∀ x ∈ l, f x = g x) → exMapM f l = exMapM g l := by
  intro l
  induction l with
  | nil => intro _; rfl
  | cons x xs ih =>
    intro hfg
    simp only [exMapM]
    rw [hfg x (List.mem_cons_self x xs), ih (fun y hy => hfg y (List.mem_cons_of_mem x hy))]

theorem clean_chunkD_parts (D : Bool) (cols : List String) :
    ∀ (parts : List (List (List Cell))) (p : List (List (String × Cell)) × List String),
      clean_chunkD D ⟨cols, parts.flatten⟩ = .ok p →
      ∃ ps, exMapM (fun rows => clean_chunkD D ⟨cols, rows⟩) parts = .ok ps ∧
        p.1 = (ps.map Prod.fst).flatten ∧ p.2 = (ps.map Prod.snd).flatten := by
  intro parts
  induction parts with
  | nil =>
    intro p h
    have hlen := clean_chunkD_rows_length D _ p h
    simp [List.flatten] at hlen
    exact ⟨[], rfl, by simp [hlen.1], by simp [hlen.2]⟩
  | cons r rest ih =>
    intro p h
    simp only [List.flatten_cons] at h
    obtain ⟨p1, p2, h1, h2, hp⟩ := clean_chunkD_append D cols r rest.flatten p h
    obtain ⟨ps, hps, e1, e2⟩ := ih p2 h2
    refine ⟨p1 :: ps, ?_, ?_, ?_⟩
    · simp only [exMapM, h1, hps, Bind.bind, Except.bind]
    · rw [hp]; simp [e1]
    · rw [hp]; simp [e2]

set_option maxRecDepth 8000 in
/-- C4 counterexample: a record's fate does depend on its chunk.  The raw
distance-25 trip is accepted when its chunk also holds a distance-500 trip
(the chunk is judged km-like, so 25 stays 25 km and the speed is in range),
but the very same record alone in a chunk is rejected as
`unrealistic_speed` (its chunk is judged miles-like, 25 becomes 40.23 km
and the speed exceeds 200). -/
theorem claim4_counterexample :
    (clean_chunk exampleRunChunk).map (fun p => (p.1.length, p.2)) =
        .ok (1, ["unrealistic_speed"]) ∧
    (clean_chunk exampleSoloChunk).map (fun p => (p.1.length, p.2)) =
        .ok (0, ["unrealistic_speed"]) := by
  constructor <;> with_unfolding_all rfl

/-- C4 (amended): chunk boundaries are semantically transparent whenever
every chunk of the partition receives the same unit-conversion decision as
the whole dataset: the per-chunk outcomes concatenate exactly to the
whole-dataset outcome, record for record.  (Without that proviso the
per-chunk distance heuristic of lines 134-138 can judge chunks
differently; see the counterexample.) -/
theorem claim4_amended (cols : List String) (parts : List (List (List Cell)))
    (p : List (List (String × Cell)) × List String)
    (hsame : ∀ rows ∈ parts,
      unitDecision ⟨cols, rows⟩ = unitDecision ⟨cols, parts.flatten⟩)
    (h : clean_chunk ⟨cols, parts.flatten⟩ = .ok p) :
    ∃ ps, exMapM (fun rows => clean_chunk ⟨cols, rows⟩) parts = .ok ps ∧
      p.1 = (ps.map Prod.fst).flatten ∧ p.2 = (ps.map Prod.snd).flatten := by
  rw [clean_chunk_eq_forced] at h
  obtain ⟨ps, hps, e1, e2⟩ :=
    clean_chunkD_parts (unitDecision ⟨cols, parts.flatten⟩) cols parts p h
  refine ⟨ps, ?_, e1, e2⟩
  rw [exMapM_congr (fun rows => clean_chunk ⟨cols, rows⟩)
    (fun rows => clean_chunkD (unitDecision ⟨cols, parts.flatten⟩) ⟨cols, rows⟩) parts
    (fun rows hr => by dsimp only; rw [clean_chunk_eq_forced, hsame rows hr])]
  exact hps

set_option maxRecDepth 8000 in
/-- C4 (amended) witness: a two-trip dataset (raw distances 10 and 12)
split into two single-row chunks; every part and the whole are judged
miles-like, and the per-chunk outcomes concatenate to the whole-dataset
outcome. -/
theorem claim4_amended_witness :
    (∀ rows ∈ examplePartition,
      unitDecision ⟨exampleTripCols, rows⟩ =
        unitDecision ⟨exampleTripCols, examplePartition.flatten⟩) ∧
    (∃ ps, exMapM (fun rows => clean_chunk ⟨exampleTripCols, rows⟩)
        examplePartition = .ok ps ∧
      (okOrEmpty (clean_chunk ⟨exampleTripCols, examplePartition.flatten⟩)).1 =
        (ps.map Prod.fst).flatten ∧
      (okOrEmpty (clean_chunk ⟨exampleTripCols, examplePartition.flatten⟩)).2 =
        (ps.map Prod.snd).flatten) := by
  have hsame : ∀ rows ∈ examplePartition,
      unitDecision ⟨exampleTripCols, rows⟩ =
        unitDecision ⟨exampleTripCols, examplePartition.flatten⟩ := by
    intro rows hr
    simp only [examplePartition, List.mem_cons, List.not_mem_nil, or_false] at hr
    rcases hr with rfl | rfl <;> with_unfolding_all rfl
  exact ⟨hsame, claim4_amended exampleTripCols examplePartition
    (okOrEmpty (clean_chunk ⟨exampleTripCols, examplePartition.flatten⟩))
    hsame (by with_unfolding_all rfl)⟩
